import Mathlib

/-!
# Verification of the ai-wright Set-of-Marks automation engine

Shallow embedding of the ai-wright library (`src/som-handler.ts`,
`src/index.ts`, `src/som-types.ts` and the compiled handler containing
`resolveSomTarget`), together with theorems checking the claims of the
natural-language specification.

Modelling conventions:
* JS numbers that the code compares and rounds are modelled as rationals
  (`ℚ`); machine floating point is not needed at the precision the code
  uses.
* JS strings are Lean `String`s; JS truthiness of a string is `s ≠ ""`,
  of an optional value `o.isSome` combined with the empty-string check.
* DOM queries that the page-side code performs (`elementFromPoint`,
  label lookup, computed styles) are modelled as per-element input data:
  the element record carries the *outcome* of each such query, and the
  embedded logic combines those outcomes exactly as the source does.
* Asynchronous code is modelled as explicit state passing; the oracle is
  a list of responses consumed one per round trip.
-/

namespace AiWright

/-! ## JS string primitives -/

/-- Code: `listIsPrefixB needle hay`: `needle` is a prefix of `hay` (Boolean). -/
def listIsPrefixB : List Char → List Char → Bool
  | [], _ => true
  | _ :: _, [] => false
  | a :: as, b :: bs => a = b && listIsPrefixB as bs

/-- Code: `listIsInfixB needle hay`: `needle` occurs contiguously in `hay`. -/
def listIsInfixB (needle : List Char) : List Char → Bool
  | [] => needle.isEmpty
  | c :: t => listIsPrefixB needle (c :: t) || listIsInfixB needle t

/-- Model of JavaScript `hay.includes(needle)` for strings. -/
def strIncludes (hay needle : String) : Bool :=
  listIsInfixB needle.toList hay.toList

/-- Model of JavaScript `s.includes(c)` for a single character. -/
def strContainsChar (s : String) (c : Char) : Bool :=
  s.toList.contains c

/-- Model of JavaScript `s.startsWith(pre)` / an anchored `^pre` regex. -/
def strStartsWith (s pre : String) : Bool :=
  listIsPrefixB pre.toList s.toList

/-- Model of JavaScript `Math.round` (half-up) on a rational. -/
def jsRound (q : ℚ) : ℤ := ⌊q + 1/2⌋

/-! ## Decimal rendering: `Nat.repr` round-trips, hence is injective

`String(idCounter)` in the page script is `Nat.repr` in the model.  The
library provides only length bounds for `Nat.repr`, so we prove the
round trip ourselves. -/

/-- Decimal digits of `n`, most significant first. -/
def decDigits (n : ℕ) : List Char :=
  if _h : n < 10 then [Nat.digitChar n]
  else decDigits (n / 10) ++ [Nat.digitChar (n % 10)]
decreasing_by exact Nat.div_lt_self (by omega) (by omega)

/-- Numeric value of a decimal digit character. -/
def charDigit (c : Char) : ℕ := c.toNat - 48

/-- Value of a most-significant-first digit string. -/
def decValue (l : List Char) : ℕ := l.foldl (fun a c => 10 * a + charDigit c) 0

theorem charDigit_digitChar {d : ℕ} (h : d < 10) :
    charDigit (Nat.digitChar d) = d := by
  interval_cases d <;> rfl

theorem decValue_append_singleton (l : List Char) (c : Char) :
    decValue (l ++ [c]) = 10 * decValue l + charDigit c := by
  simp [decValue, List.foldl_append]

theorem decValue_decDigits (n : ℕ) : decValue (decDigits n) = n := by
  induction n using Nat.strong_induction_on with
  | _ n ih =>
    by_cases h : n < 10
    · rw [decDigits, dif_pos h]
      simp [decValue, charDigit_digitChar h]
    · rw [decDigits, dif_neg h, decValue_append_singleton,
        ih (n / 10) (Nat.div_lt_self (by omega) (by omega)),
        charDigit_digitChar (Nat.mod_lt n (by omega))]
      omega

theorem toDigitsCore_eq_decDigits (f : ℕ) :
    ∀ (n : ℕ) (ds : List Char), n < f →
      Nat.toDigitsCore 10 f n ds = decDigits n ++ ds := by
  induction f with
  | zero => intro n ds hn; omega
  | succ f ih =>
    intro n ds h
    by_cases h10 : n / 10 = 0
    · have hn : n < 10 := by
        by_contra hcon
        have : 1 ≤ n / 10 := Nat.one_le_div_iff (by omega) |>.mpr (by omega)
        omega
      rw [Nat.toDigitsCore]
      simp only [h10, if_true]
      rw [decDigits, dif_pos hn, Nat.mod_eq_of_lt hn]
      rfl
    · have hn : ¬ n < 10 := by
        intro hcon
        exact h10 (Nat.div_eq_of_lt hcon)
      have hlt : n / 10 < f := by
        have h1 : n / 10 < n := Nat.div_lt_self (by omega) (by omega)
        omega
      have hdn : decDigits n = decDigits (n / 10) ++ [Nat.digitChar (n % 10)] := by
        rw [decDigits]
        exact dif_neg hn
      rw [Nat.toDigitsCore]
      simp only [h10, if_false]
      rw [ih (n / 10) (Nat.digitChar (n % 10) :: ds) hlt, hdn]
      simp

theorem repr_eq_decDigits (n : ℕ) : Nat.repr n = (decDigits n).asString := by
  rw [Nat.repr, Nat.toDigits, toDigitsCore_eq_decDigits (n + 1) n [] (by omega)]
  simp

theorem natRepr_injective : Function.Injective Nat.repr := by
  intro a b h
  rw [repr_eq_decDigits, repr_eq_decDigits] at h
  have hdigits : decDigits a = decDigits b := by
    have := congrArg String.data h
    simpa [List.asString] using this
  have := congrArg decValue hdigits
  rwa [decValue_decDigits, decValue_decDigits] at this

/-! ## Annotator data model (`updateSom` in `som-handler.ts`)

A `RawEl` is one entry of the `topLevelInteractive` set, in discovery
order, carrying the values the page script reads from the DOM for that
element.  Document-level query outcomes (the five `elementFromPoint`
probes and the associated-`<label>` lookup) are supplied as input
fields; the filter and descriptor logic combines them exactly as the
source does. -/

/-- Code: `getBoundingClientRect()` result (viewport-relative). -/
structure Rect where
  x : ℚ
  y : ℚ
  width : ℚ
  height : ℚ
deriving DecidableEq

/-- Window viewport dimensions. -/
structure Viewport where
  innerWidth : ℚ
  innerHeight : ℚ
deriving DecidableEq

/-- The computed-style fields read by the filter. -/
structure ComputedStyle where
  display : String
  visibility : String
  opacity : ℚ
deriving DecidableEq

/-- Computed style of a `::before` / `::after` pseudo-element. -/
structure PseudoStyle where
  content : String
  visibility : String
  display : String
deriving DecidableEq

/-- For each of the five occlusion sample points (center + four inset
corners): whether `document.elementFromPoint` there returned the element
itself or a node in an ancestor/descendant relation with it. -/
structure OcclusionProbe where
  center : Bool
  topLeft : Bool
  topRight : Bool
  bottomLeft : Bool
  bottomRight : Bool
deriving DecidableEq

/-- Parent-element data read for the descriptor's parent summary. -/
structure RawParent where
  tagName : String
  roleAttr : Option String
  className : String
  textContent : String
deriving DecidableEq

/-- One discovered interactive element, with the DOM values the page
script reads from it.  `labelLookup` is the outcome of the
document-level associated-`<label>` search (`label[for=id]` or ancestor
label), consumed only for input/textarea/select elements. -/
structure RawEl where
  tagName : String
  rect : Rect
  styles : ComputedStyle
  beforeStyle : PseudoStyle
  afterStyle : PseudoStyle
  disabledProp : Bool
  hasDisabledAttr : Bool
  ariaDisabled : Option String
  dataDisabled : Option String
  classListDisabled : Bool
  probe : OcclusionProbe
  textContent : String
  ariaLabelAttr : Option String
  altAttr : Option String
  roleAttr : Option String
  nameAttr : Option String
  placeholder : String
  typeProp : String
  idAttr : String
  className : String
  labelLookup : String
  parentInfo : Option RawParent
deriving DecidableEq

/-- Parent summary stored in a descriptor (`SomElement.parent`). -/
structure ParentInfo where
  tag : String
  role : String
  className : String
  text : String
deriving DecidableEq

/-- Code: `SomElement` descriptor from `som-types.ts`. -/
structure SomElement where
  somId : String
  tag : String
  role : String
  text : String
  ariaLabel : String
  labelText : String
  placeholder : String
  name : String
  type : String
  id : String
  className : String
  bbox : Rect
  hasVisiblePseudoElement : Bool
  parent : Option ParentInfo
deriving DecidableEq

/-- JS `a || b` for an optional string attribute value. -/
def orElseStr (o : Option String) (d : String) : String :=
  match o with
  | some s => if s = "" then d else s
  | none => d

/-- One pseudo-element shows visible generated content
(`content !== 'none' && visibility === 'visible' && display !== 'none'`). -/
def pseudoVisibleB (p : PseudoStyle) : Bool :=
  decide (p.content ≠ "none") && decide (p.visibility = "visible")
    && decide (p.display ≠ "none")

/-- Code: `hasVisiblePseudo` of `updateSom`: pseudo-elements are consulted only
when the main element is visibility-hidden or fully transparent. -/
def hasVisiblePseudoB (e : RawEl) : Bool :=
  if e.styles.visibility = "hidden" ∨ e.styles.opacity = 0 then
    pseudoVisibleB e.beforeStyle || pseudoVisibleB e.afterStyle
  else false

/-- Code: `isHidden` of `updateSom`. -/
def isHiddenB (e : RawEl) : Bool :=
  decide (e.styles.display = "none")
    || (decide (e.styles.visibility = "hidden") && decide (e.styles.opacity = 0))

/-- Code: `isDisabled` of `updateSom`. -/
def isDisabledB (e : RawEl) : Bool :=
  e.disabledProp || e.hasDisabledAttr || decide (e.ariaDisabled = some "true")
    || decide (e.dataDisabled = some "true") || e.classListDisabled

/-- Code: `isInViewport` of `updateSom`:
`rect.top < innerHeight && rect.bottom > 0 && rect.left < innerWidth && rect.right > 0`. -/
def inViewportB (vp : Viewport) (e : RawEl) : Bool :=
  decide (e.rect.y < vp.innerHeight) && decide (0 < e.rect.y + e.rect.height)
    && decide (e.rect.x < vp.innerWidth) && decide (0 < e.rect.x + e.rect.width)

/-- Code: `visiblePoints`: how many of the five sample points hit the element
or a related node. -/
def probeCount (p : OcclusionProbe) : ℕ :=
  (if p.center then 1 else 0) + (if p.topLeft then 1 else 0)
    + (if p.topRight then 1 else 0) + (if p.bottomLeft then 1 else 0)
    + (if p.bottomRight then 1 else 0)

/-- The zero-size / hidden / disabled early returns of the filter, in
source order (`true` = the element survives them). -/
def prefilterB (idis : Bool) (e : RawEl) : Bool :=
  !(decide (e.rect.width = 0) || decide (e.rect.height = 0))
    && !(isHiddenB e && !hasVisiblePseudoB e)
    && !(isDisabledB e && !idis)

/-- The occlusion/viewport branch of the filter (`true` = survives).
The occlusion probe only runs in the `!includeOffscreen && isInViewport`
branch; with `includeOffscreen = true` the element is kept without any
occlusion check, and in viewport-only mode offscreen elements are
dropped. -/
def occlusionPassB (vp : Viewport) (io : Bool) (e : RawEl) : Bool :=
  if !io && inViewportB vp e then decide (1 ≤ probeCount e.probe)
  else if io && !(inViewportB vp e) then true
  else if !io && !(inViewportB vp e) then false
  else true

/-- An element receives a marker iff it survives every early return. -/
def includedB (vp : Viewport) (io idis : Bool) (e : RawEl) : Bool :=
  prefilterB idis e && occlusionPassB vp io e

/-- The single-quote character (used by the pseudo-content quote strip). -/
def squote : Char := Char.ofNat 39

/-- JS `content.replace(/^["']|["']$/g, '')`: drop one leading and one
trailing quote character. -/
def stripQuotes (s : String) : String :=
  let l := s.toList
  let l1 := match l with
    | c :: t => if c = '"' ∨ c = squote then t else l
    | [] => []
  let l2 := match l1.reverse with
    | c :: t => if c = '"' ∨ c = squote then t.reverse else l1
    | [] => []
  String.mk l2

/-- Code: `displayText` capture: trimmed text truncated to 50 chars, replaced
by pseudo-element content when the element is hidden but renders via a
pseudo-element. -/
def displayTextOf (e : RawEl) (hasPseudo : Bool) : String :=
  let base := (e.textContent.trim).take 50
  if hasPseudo && (decide (base = "") || decide (e.styles.visibility = "hidden")) then
    if e.beforeStyle.content ≠ "" ∧ e.beforeStyle.content ≠ "none" then
      stripQuotes e.beforeStyle.content
    else if e.afterStyle.content ≠ "" ∧ e.afterStyle.content ≠ "none" then
      stripQuotes e.afterStyle.content
    else base
  else base

/-- Code: `accessibleName` capture: `aria-label`, falling back to `alt` for
images. -/
def accessibleNameOf (e : RawEl) : String :=
  let a := orElseStr e.ariaLabelAttr ""
  if e.tagName.toLower = "img" ∧ a = "" then orElseStr e.altAttr "" else a

/-- Code: `labelText` capture: only input/textarea/select elements get the
associated-label lookup. -/
def labelTextOf (e : RawEl) : String :=
  let tagLower := e.tagName.toLower
  if tagLower = "input" ∨ tagLower = "textarea" ∨ tagLower = "select" then
    e.labelLookup
  else ""

/-- Descriptor capture of `updateSom` for one included element. -/
def mkDescriptor (e : RawEl) (s : String) : SomElement :=
  let hasPseudo := hasVisiblePseudoB e
  let tagLower := e.tagName.toLower
  { somId := s
    tag := tagLower
    role := orElseStr e.roleAttr tagLower
    text := displayTextOf e hasPseudo
    ariaLabel := accessibleNameOf e
    labelText := labelTextOf e
    placeholder := e.placeholder
    name := orElseStr e.nameAttr ""
    type := e.typeProp
    id := e.idAttr
    className := e.className
    bbox := ⟨(jsRound e.rect.x : ℚ), (jsRound e.rect.y : ℚ),
      (jsRound e.rect.width : ℚ), (jsRound e.rect.height : ℚ)⟩
    hasVisiblePseudoElement := hasPseudo
    parent := e.parentInfo.map fun p =>
      ⟨p.tagName.toLower, orElseStr p.roleAttr "", p.className,
        (p.textContent.trim).take 30⟩ }

/-- The discovery loop of `updateSom`: `idCounter` starts at 1 and is
incremented exactly when an element passes all filters and receives
`String(idCounter++)` as its marker id. -/
def annotateAux (vp : Viewport) (io idis : Bool) : List RawEl → ℕ → List SomElement
  | [], _ => []
  | e :: rest, counter =>
    if includedB vp io idis e then
      mkDescriptor e (Nat.repr counter) :: annotateAux vp io idis rest (counter + 1)
    else annotateAux vp io idis rest counter

/-- One full annotation pass over the discovered elements. -/
def annotate (vp : Viewport) (io idis : Bool) (raws : List RawEl) : List SomElement :=
  annotateAux vp io idis raws 1

/-- JS `Map.set` on an insertion-ordered association list. -/
def mapSet (m : List (String × SomElement)) (k : String) (v : SomElement) :
    List (String × SomElement) :=
  if m.any (fun p => p.1 = k) then m.map (fun p => if p.1 = k then (k, v) else p)
  else m ++ [(k, v)]

/-- Code: `updateSom`'s effect on `this.somMap`: `somMap.clear()` followed by
`elements.forEach(el => somMap.set(el.somId, el))` — the previous round's
map is discarded entirely. -/
def updateSomMap (_previous : List (String × SomElement)) (vp : Viewport)
    (io idis : Bool) (raws : List RawEl) : List (String × SomElement) :=
  (annotate vp io idis raws).foldl (fun m el => mapSet m el.somId el) []

theorem annotateAux_eq_enumFrom (vp : Viewport) (io idis : Bool) :
    ∀ (raws : List RawEl) (c : ℕ),
      annotateAux vp io idis raws c
        = (List.enumFrom c (raws.filter (includedB vp io idis))).map
            (fun p => mkDescriptor p.2 (Nat.repr p.1)) := by
  intro raws
  induction raws with
  | nil => intro c; rfl
  | cons e rest ih =>
    intro c
    by_cases h : includedB vp io idis e
    · simp [annotateAux, h, List.filter_cons, List.enumFrom, ih]
    · simp [annotateAux, h, List.filter_cons, ih]

theorem annotate_eq_enumFrom (vp : Viewport) (io idis : Bool) (raws : List RawEl) :
    annotate vp io idis raws
      = (List.enumFrom 1 (raws.filter (includedB vp io idis))).map
          (fun p => mkDescriptor p.2 (Nat.repr p.1)) :=
  annotateAux_eq_enumFrom vp io idis raws 1

theorem annotate_map_somId (vp : Viewport) (io idis : Bool) (raws : List RawEl) :
    (annotate vp io idis raws).map (·.somId)
      = (List.range' 1 (annotate vp io idis raws).length).map Nat.repr := by
  rw [annotate_eq_enumFrom]
  simp only [List.map_map, List.length_map, List.enumFrom_length]
  have h1 : ((·.somId) ∘ fun p : ℕ × RawEl => mkDescriptor p.2 (Nat.repr p.1))
      = Nat.repr ∘ Prod.fst := by
    funext p
    rfl
  rw [h1, ← List.map_map, List.enumFrom_map_fst]

theorem foldl_mapSet (els : List SomElement) :
    ∀ acc : List (String × SomElement),
      (∀ el ∈ els, ∀ p ∈ acc, p.1 ≠ el.somId) →
      (els.map (·.somId)).Nodup →
      els.foldl (fun m el => mapSet m el.somId el) acc
        = acc ++ els.map (fun el => (el.somId, el)) := by
  induction els with
  | nil => intro acc _ _; simp
  | cons e rest ih =>
    intro acc hdisj hnodup
    have hnone : acc.any (fun p => p.1 = e.somId) = false := by
      simp only [List.any_eq_false]
      intro p hp
      simpa using (hdisj e (by simp) p hp)
    have hstep : mapSet acc e.somId e = acc ++ [(e.somId, e)] := by
      rw [mapSet, hnone]
      simp
    simp only [List.foldl_cons, hstep]
    rw [ih (acc ++ [(e.somId, e)])]
    · simp
    · intro el hel p hp
      rcases List.mem_append.mp hp with hp' | hp'
      · exact hdisj el (by simp [hel]) p hp'
      · simp only [List.mem_singleton] at hp'
        subst hp'
        simp only [List.map_cons, List.nodup_cons] at hnodup
        intro hcon
        have hcon' : e.somId = el.somId := hcon
        refine hnodup.1 ?_
        rw [hcon']
        exact List.mem_map_of_mem (·.somId) hel
    · simp only [List.map_cons, List.nodup_cons] at hnodup
      exact hnodup.2

/-- C1: every annotation round assigns marker ids `"1", "2", …, "n"` in
discovery order (so ids are unique and increasing), and `updateSom`
clears the previous round's map, rebuilding it solely from the new
elements — the result is independent of the previous map. -/
theorem updateSom_marker_ids (vp : Viewport) (io idis : Bool) (raws : List RawEl)
    (prev : List (String × SomElement)) :
    ((annotate vp io idis raws).map (·.somId)
        = (List.range' 1 (annotate vp io idis raws).length).map Nat.repr)
    ∧ ((annotate vp io idis raws).map (·.somId)).Nodup
    ∧ updateSomMap prev vp io idis raws
        = (annotate vp io idis raws).map (fun el => (el.somId, el))
    ∧ ∀ prev₂, updateSomMap prev vp io idis raws = updateSomMap prev₂ vp io idis raws := by
  have hids := annotate_map_somId vp io idis raws
  have hnodup : ((annotate vp io idis raws).map (·.somId)).Nodup := by
    rw [hids]
    exact (List.nodup_range' 1 _).map natRepr_injective
  refine ⟨hids, hnodup, ?_, fun _ => rfl⟩
  unfold updateSomMap
  rw [foldl_mapSet _ [] (by simp) hnodup]
  simp

/-! ## Occlusion behaviour of the annotator (claim C2) -/

/-- A demonstration viewport. -/
def vpDemo : Viewport := ⟨1280, 720⟩

/-- Pseudo-element style with no generated content. -/
def noPseudo : PseudoStyle := ⟨"none", "visible", "block"⟩

/-- A visible, enabled, in-viewport button whose five occlusion sample
points all hit an unrelated covering element. -/
def occludedDemo : RawEl :=
  { tagName := "BUTTON"
    rect := ⟨100, 100, 80, 40⟩
    styles := ⟨"block", "visible", 1⟩
    beforeStyle := noPseudo
    afterStyle := noPseudo
    disabledProp := false
    hasDisabledAttr := false
    ariaDisabled := none
    dataDisabled := none
    classListDisabled := false
    probe := ⟨false, false, false, false, false⟩
    textContent := "Buy now"
    ariaLabelAttr := none
    altAttr := none
    roleAttr := none
    nameAttr := none
    placeholder := ""
    typeProp := "submit"
    idAttr := ""
    className := ""
    labelLookup := ""
    parentInfo := none }

/-- The same button with its center sample point unobstructed. -/
def visibleDemo : RawEl := { occludedDemo with probe := ⟨true, false, false, false, false⟩ }

theorem inViewportB_occludedDemo : inViewportB vpDemo occludedDemo = true := by
  norm_num [inViewportB, vpDemo, occludedDemo]

theorem inViewportB_visibleDemo : inViewportB vpDemo visibleDemo = true := by
  norm_num [inViewportB, vpDemo, visibleDemo, occludedDemo]

theorem includedB_offscreenPass_occludedDemo :
    includedB vpDemo true false occludedDemo = true := by
  have hpre : prefilterB false occludedDemo = true := by decide
  simp [includedB, occlusionPassB, hpre]

/-- C2 counterexample: in a pass with `includeOffscreen = true` the
occlusion test is skipped even for in-viewport elements, so an
in-viewport element whose five sample points are all covered by an
unrelated element still receives a marker — refuting the claim that such
an element never does, for every annotation pass. -/
theorem updateSom_occlusion_counterexample :
    inViewportB vpDemo occludedDemo = true
    ∧ probeCount occludedDemo.probe = 0
    ∧ (annotate vpDemo true false [occludedDemo]).map (·.somId) = ["1"] := by
  refine ⟨inViewportB_occludedDemo, by decide, ?_⟩
  rw [annotate_eq_enumFrom]
  simp [List.filter_cons, includedB_offscreenPass_occludedDemo, List.enumFrom, mkDescriptor]
  decide

/-- C2 (amended): in viewport-only passes (`includeOffscreen = false`)
an in-viewport element fully covered at all five sample points never
receives a marker, while an otherwise-eligible in-viewport element with
at least one related sample point always does (in every pass); elements
outside the viewport are dropped in viewport-only mode and are included
without any occlusion test when offscreen inclusion is requested — and
in the latter mode the occlusion test is skipped for in-viewport
elements as well.  The final clause ties `includedB` to marker
assignment: a pass marks exactly the filtered elements, in order. -/
theorem updateSom_occlusion_spec (vp : Viewport) (idis : Bool) (e : RawEl) :
    (inViewportB vp e = true → probeCount e.probe = 0 →
      includedB vp false idis e = false)
    ∧ (prefilterB idis e = true → inViewportB vp e = true → 1 ≤ probeCount e.probe →
      ∀ io, includedB vp io idis e = true)
    ∧ (inViewportB vp e = false →
      includedB vp false idis e = false
      ∧ includedB vp true idis e = prefilterB idis e)
    ∧ ∀ (io : Bool) (raws : List RawEl),
        annotate vp io idis raws
          = (List.enumFrom 1 (raws.filter (includedB vp io idis))).map
              (fun p => mkDescriptor p.2 (Nat.repr p.1)) := by
  refine ⟨?_, ?_, ?_, fun io raws => annotate_eq_enumFrom vp io idis raws⟩
  · intro hvp hp
    simp [includedB, occlusionPassB, hvp, hp]
  · intro hpre hvp hpoints io
    cases io <;> simp [includedB, occlusionPassB, hvp, hpre, hpoints]
  · intro hvp
    constructor <;> simp [includedB, occlusionPassB, hvp]

/-- Witness for `updateSom_occlusion_spec` at concrete elements. -/
theorem updateSom_occlusion_spec_witness :
    includedB vpDemo false false occludedDemo = false
    ∧ includedB vpDemo false false visibleDemo = true :=
  ⟨(updateSom_occlusion_spec vpDemo false occludedDemo).1 inViewportB_occludedDemo
      (by decide),
   (updateSom_occlusion_spec vpDemo false visibleDemo).2.1 (by decide)
     inViewportB_visibleDemo (by decide) false⟩

/-! ## Selector synthesizer (`generateSemanticSelectors` in `som-handler.ts`) -/

/-- Code: `TypedSelector` from `som-types.ts` (only the variants the
synthesizer emits; `role` carries its `roleOptions.name`). -/
inductive TypedSelector where
  | id (value : String)
  | label (value : String)
  | name (value : String)
  | placeholder (value : String)
  | locator (value : String)
  | role (value : String) (accName : String)
  | text (value : String)
deriving DecidableEq

/-- Stable-id heuristic: non-empty, no colon, no `rc_`/`__` prefix, no
`«` glyph. -/
def stableIdCond (e : SomElement) : Bool :=
  decide (e.id ≠ "") && !(strContainsChar e.id ':')
    && !(strStartsWith e.id "rc_" || strStartsWith e.id "__")
    && !(strContainsChar e.id '«')

/-- Priority 2: stable attribute id. -/
def idSegment (e : SomElement) : List TypedSelector :=
  if stableIdCond e then [.id e.id] else []

/-- Priority 3: associated `<label>` text. -/
def labelSegment (e : SomElement) : List TypedSelector :=
  if e.labelText ≠ "" then [.label e.labelText] else []

/-- Priority 4: form `name` attribute for input/textarea/select. -/
def nameSegment (e : SomElement) : List TypedSelector :=
  if e.name ≠ "" ∧ (e.tag = "input" ∨ e.tag = "textarea" ∨ e.tag = "select") then
    [.name e.name]
  else []

/-- Priority 5: placeholder text. -/
def placeholderSegment (e : SomElement) : List TypedSelector :=
  if e.placeholder ≠ "" then [.placeholder e.placeholder] else []

/-- The `^(css-|MuiButton-|ant-|btn-)` auto-generated-class test. -/
def autoGenClass (c : String) : Bool :=
  strStartsWith c "css-" || strStartsWith c "MuiButton-"
    || strStartsWith c "ant-" || strStartsWith c "btn-"

/-- Priority 6: CSS selectors for pseudo-element buttons (type-based,
then first stable class, rejecting auto-generated utility prefixes). -/
def pseudoCssSegment (e : SomElement) : List TypedSelector :=
  if e.hasVisiblePseudoElement = true ∧ e.tag = "button" then
    (if e.type = "submit" then [.locator "button[type=\"submit\"]"] else [])
      ++ (if e.className ≠ "" then
            (if (e.className.splitOn " ").headD "" ≠ ""
                ∧ !autoGenClass ((e.className.splitOn " ").headD "") then
              [.locator ("button." ++ (e.className.splitOn " ").headD "")]
            else [])
          else [])
  else []

/-- Priority 7: accessible role + name (skipped for pseudo-element
descriptors). -/
def roleSegment (e : SomElement) : List TypedSelector :=
  if e.hasVisiblePseudoElement = false ∧ e.role ≠ "" then
    (if (if e.ariaLabel ≠ "" then e.ariaLabel else e.text) ≠ "" then
      [.role e.role (if e.ariaLabel ≠ "" then e.ariaLabel else e.text)]
    else [])
  else []

/-- Priority 8: visible text (same exclusion). -/
def textSegment (e : SomElement) : List TypedSelector :=
  if e.hasVisiblePseudoElement = false ∧ e.text ≠ "" then [.text e.text] else []

/-- Priority 9: parent-class-scoped tag selector. -/
def parentSegment (e : SomElement) : List TypedSelector :=
  match e.parent with
  | some p =>
    if p.className ≠ "" then
      (if (p.className.splitOn " ").headD "" ≠ "" then
        [.locator ("." ++ (p.className.splitOn " ").headD "" ++ " " ++ e.tag)]
      else [])
    else []
  | none => []

/-- Code: `generateSemanticSelectors`: the nine priorities pushed in source
order. -/
def generateSemanticSelectors (e : SomElement) : List TypedSelector :=
  idSegment e ++ labelSegment e ++ nameSegment e ++ placeholderSegment e
    ++ pseudoCssSegment e ++ roleSegment e ++ textSegment e ++ parentSegment e

/-- First character is a class-selector dot (distinguishes the
parent-scoped locator from the pseudo-element button locators). -/
def headIsDot (v : String) : Bool :=
  match v.toList with
  | c :: _ => c == '.'
  | [] => false

/-- Priority rank of a selector, as the spec orders them. -/
def selRank : TypedSelector → ℕ
  | .id _ => 0
  | .label _ => 1
  | .name _ => 2
  | .placeholder _ => 3
  | .locator v => if headIsDot v then 7 else 4
  | .role _ _ => 5
  | .text _ => 6

/-- Role-selector discriminator. -/
def TypedSelector.isRole : TypedSelector → Bool
  | .role _ _ => true
  | _ => false

/-- Text-selector discriminator. -/
def TypedSelector.isText : TypedSelector → Bool
  | .text _ => true
  | _ => false

theorem headIsDot_append (a b : String) (c : Char) (rest : List Char)
    (h : a.toList = c :: rest) : headIsDot (a ++ b) = (c == '.') := by
  unfold headIsDot
  have hdata : (a ++ b).toList = a.toList ++ b.toList := by
    simp [String.toList]
  rw [hdata, h]
  simp

theorem headIsDot_buttonClass (f : String) : headIsDot ("button." ++ f) = false := by
  rw [headIsDot_append "button." f 'b' ['u', 't', 't', 'o', 'n', '.'] rfl]
  decide

theorem headIsDot_parentLoc (p t : String) :
    headIsDot ("." ++ p ++ " " ++ t) = true := by
  rw [String.append_assoc, String.append_assoc,
    headIsDot_append "." (p ++ (" " ++ t)) '.' [] rfl]
  decide

theorem rank_mem_idSegment (e : SomElement) :
    ∀ s ∈ idSegment e, selRank s = 0 := by
  intro s hs
  unfold idSegment at hs
  split at hs
  · simp only [List.mem_singleton] at hs
    subst hs
    rfl
  · simp at hs

theorem rank_mem_labelSegment (e : SomElement) :
    ∀ s ∈ labelSegment e, selRank s = 1 := by
  intro s hs
  unfold labelSegment at hs
  split at hs
  · simp only [List.mem_singleton] at hs
    subst hs
    rfl
  · simp at hs

theorem rank_mem_nameSegment (e : SomElement) :
    ∀ s ∈ nameSegment e, selRank s = 2 := by
  intro s hs
  unfold nameSegment at hs
  split at hs
  · simp only [List.mem_singleton] at hs
    subst hs
    rfl
  · simp at hs

theorem rank_mem_placeholderSegment (e : SomElement) :
    ∀ s ∈ placeholderSegment e, selRank s = 3 := by
  intro s hs
  unfold placeholderSegment at hs
  split at hs
  · simp only [List.mem_singleton] at hs
    subst hs
    rfl
  · simp at hs

theorem rank_mem_pseudoCssSegment (e : SomElement) :
    ∀ s ∈ pseudoCssSegment e, selRank s = 4 := by
  intro s hs
  unfold pseudoCssSegment at hs
  split at hs
  · rcases List.mem_append.mp hs with h | h
    · split at h
      · simp only [List.mem_singleton] at h
        subst h
        rfl
      · simp at h
    · split at h
      · split at h
        · simp only [List.mem_singleton] at h
          subst h
          simp [selRank, headIsDot_buttonClass]
        · simp at h
      · simp at h
  · simp at hs

theorem rank_mem_roleSegment (e : SomElement) :
    ∀ s ∈ roleSegment e, selRank s = 5 := by
  intro s hs
  unfold roleSegment at hs
  split at hs
  · split_ifs at hs <;> simp only [List.mem_singleton, List.not_mem_nil] at hs <;>
      first
        | exact hs.elim
        | (subst hs; rfl)
  · simp at hs

theorem rank_mem_textSegment (e : SomElement) :
    ∀ s ∈ textSegment e, selRank s = 6 := by
  intro s hs
  unfold textSegment at hs
  split at hs
  · simp only [List.mem_singleton] at hs
    subst hs
    rfl
  · simp at hs

theorem rank_mem_parentSegment (e : SomElement) :
    ∀ s ∈ parentSegment e, selRank s = 7 := by
  intro s hs
  unfold parentSegment at hs
  split at hs
  · split_ifs at hs
    all_goals simp only [List.mem_singleton, List.not_mem_nil] at hs
    all_goals first
      | exact hs.elim
      | (subst hs; simp [selRank, headIsDot_parentLoc])
  · simp at hs

theorem sorted_of_all_eq {l : List ℕ} {k : ℕ} (h : ∀ r ∈ l, r = k) :
    l.Sorted (· ≤ ·) := by
  induction l with
  | nil => exact List.sorted_nil
  | cons a t ih =>
    rw [List.sorted_cons]
    refine ⟨fun b hb => ?_, ih fun r hr => h r (List.mem_cons_of_mem a hr)⟩
    rw [h a (List.mem_cons_self a t), h b (List.mem_cons_of_mem a hb)]

theorem sorted_append_le {l₁ l₂ : List ℕ}
    (s₁ : l₁.Sorted (· ≤ ·)) (s₂ : l₂.Sorted (· ≤ ·))
    (h : ∀ a ∈ l₁, ∀ b ∈ l₂, a ≤ b) : (l₁ ++ l₂).Sorted (· ≤ ·) :=
  List.pairwise_append.mpr ⟨s₁, s₂, h⟩

theorem ranks_map_eq {seg : List TypedSelector} {k : ℕ}
    (h : ∀ s ∈ seg, selRank s = k) : ∀ r ∈ seg.map selRank, r = k := by
  intro r hr
  obtain ⟨s, hs, rfl⟩ := List.mem_map.mp hr
  exact h s hs

theorem gen_ranks_sorted (e : SomElement) :
    ((generateSemanticSelectors e).map selRank).Sorted (· ≤ ·) := by
  have h0 := ranks_map_eq (rank_mem_idSegment e)
  have h1 := ranks_map_eq (rank_mem_labelSegment e)
  have h2 := ranks_map_eq (rank_mem_nameSegment e)
  have h3 := ranks_map_eq (rank_mem_placeholderSegment e)
  have h4 := ranks_map_eq (rank_mem_pseudoCssSegment e)
  have h5 := ranks_map_eq (rank_mem_roleSegment e)
  have h6 := ranks_map_eq (rank_mem_textSegment e)
  have h7 := ranks_map_eq (rank_mem_parentSegment e)
  unfold generateSemanticSelectors
  simp only [List.map_append, List.append_assoc]
  refine sorted_append_le (sorted_of_all_eq h0) ?_ ?_
  · refine sorted_append_le (sorted_of_all_eq h1) ?_ ?_
    · refine sorted_append_le (sorted_of_all_eq h2) ?_ ?_
      · refine sorted_append_le (sorted_of_all_eq h3) ?_ ?_
        · refine sorted_append_le (sorted_of_all_eq h4) ?_ ?_
          · refine sorted_append_le (sorted_of_all_eq h5) ?_ ?_
            · exact sorted_append_le (sorted_of_all_eq h6) (sorted_of_all_eq h7)
                (fun a ha b hb => by rw [h6 a ha, h7 b hb]; omega)
            · intro a ha b hb
              rw [h5 a ha]
              rcases List.mem_append.mp hb with h | h
              · rw [h6 b h]
                omega
              · rw [h7 b h]
                omega
          · intro a ha b hb
            rw [h4 a ha]
            rcases List.mem_append.mp hb with h | h
            · rw [h5 b h]
              omega
            rcases List.mem_append.mp h with h' | h'
            · rw [h6 b h']
              omega
            · rw [h7 b h']
              omega
        · intro a ha b hb
          rw [h3 a ha]
          rcases List.mem_append.mp hb with h | h
          · rw [h4 b h]
            omega
          rcases List.mem_append.mp h with h' | h'
          · rw [h5 b h']
            omega
          rcases List.mem_append.mp h' with h'' | h''
          · rw [h6 b h'']
            omega
          · rw [h7 b h'']
            omega
      · intro a ha b hb
        rw [h2 a ha]
        rcases List.mem_append.mp hb with h | h
        · rw [h3 b h]
          omega
        rcases List.mem_append.mp h with h' | h'
        · rw [h4 b h']
          omega
        rcases List.mem_append.mp h' with h'' | h''
        · rw [h5 b h'']
          omega
        rcases List.mem_append.mp h'' with h3' | h3'
        · rw [h6 b h3']
          omega
        · rw [h7 b h3']
          omega
    · intro a ha b hb
      rw [h1 a ha]
      rcases List.mem_append.mp hb with h | h
      · rw [h2 b h]
        omega
      rcases List.mem_append.mp h with h' | h'
      · rw [h3 b h']
        omega
      rcases List.mem_append.mp h' with h'' | h''
      · rw [h4 b h'']
        omega
      rcases List.mem_append.mp h'' with h3' | h3'
      · rw [h5 b h3']
        omega
      rcases List.mem_append.mp h3' with h4' | h4'
      · rw [h6 b h4']
        omega
      · rw [h7 b h4']
        omega
  · intro a ha b _
    rw [h0 a ha]
    omega

theorem mem_gen_cases {e : SomElement} {s : TypedSelector}
    (h : s ∈ generateSemanticSelectors e) :
    s ∈ idSegment e ∨ s ∈ labelSegment e ∨ s ∈ nameSegment e ∨ s ∈ placeholderSegment e
      ∨ s ∈ pseudoCssSegment e ∨ s ∈ roleSegment e ∨ s ∈ textSegment e
      ∨ s ∈ parentSegment e := by
  simpa [generateSemanticSelectors, List.mem_append, or_assoc] using h

theorem isRole_false_of_rank {s : TypedSelector} {k : ℕ} (h : selRank s = k)
    (hk : k ≠ 5) : s.isRole = false := by
  cases s <;> simp_all [selRank, TypedSelector.isRole]

theorem isText_false_of_rank {s : TypedSelector} {k : ℕ} (h : selRank s = k)
    (hk : k ≠ 6) : s.isText = false := by
  cases s <;> simp_all [selRank, TypedSelector.isText]

/-- C4: `generateSemanticSelectors` lists the strategies in the fixed
priority order (stable id, label, form name, placeholder, pseudo-element
CSS, role+name, visible text, parent-scoped locator — captured by
`selRank` being sorted over the output), each kind is present exactly
under its source precondition, pseudo-element CSS selectors appear only
for pseudo-element buttons, and a descriptor flagged
`hasVisiblePseudoElement` never yields a role-based or text-based
selector. -/
theorem generateSemanticSelectors_spec (e : SomElement) :
    ((generateSemanticSelectors e).map selRank).Sorted (· ≤ ·)
    ∧ ((∃ v, TypedSelector.id v ∈ generateSemanticSelectors e) ↔ stableIdCond e = true)
    ∧ ((∃ v, TypedSelector.label v ∈ generateSemanticSelectors e) ↔ e.labelText ≠ "")
    ∧ ((∃ v, TypedSelector.name v ∈ generateSemanticSelectors e) ↔
        (e.name ≠ "" ∧ (e.tag = "input" ∨ e.tag = "textarea" ∨ e.tag = "select")))
    ∧ ((∃ v, TypedSelector.placeholder v ∈ generateSemanticSelectors e) ↔
        e.placeholder ≠ "")
    ∧ (∀ s ∈ pseudoCssSegment e, e.hasVisiblePseudoElement = true ∧ e.tag = "button")
    ∧ (e.hasVisiblePseudoElement = true →
        ∀ s ∈ generateSemanticSelectors e, s.isRole = false ∧ s.isText = false) := by
  refine ⟨gen_ranks_sorted e, ?_, ?_, ?_, ?_, ?_, ?_⟩
  · constructor
    · rintro ⟨v, hv⟩
      rcases mem_gen_cases hv with h | h | h | h | h | h | h | h
      · unfold idSegment at h
        split at h
        · assumption
        · simp at h
      · have := rank_mem_labelSegment e _ h
        simp [selRank] at this
      · have := rank_mem_nameSegment e _ h
        simp [selRank] at this
      · have := rank_mem_placeholderSegment e _ h
        simp [selRank] at this
      · have := rank_mem_pseudoCssSegment e _ h
        simp [selRank] at this
      · have := rank_mem_roleSegment e _ h
        simp [selRank] at this
      · have := rank_mem_textSegment e _ h
        simp [selRank] at this
      · have := rank_mem_parentSegment e _ h
        simp [selRank] at this
    · intro hc
      exact ⟨e.id, by simp [generateSemanticSelectors, idSegment, hc, List.mem_append]⟩
  · constructor
    · rintro ⟨v, hv⟩
      rcases mem_gen_cases hv with h | h | h | h | h | h | h | h
      · have := rank_mem_idSegment e _ h
        simp [selRank] at this
      · unfold labelSegment at h
        split at h
        · assumption
        · simp at h
      · have := rank_mem_nameSegment e _ h
        simp [selRank] at this
      · have := rank_mem_placeholderSegment e _ h
        simp [selRank] at this
      · have := rank_mem_pseudoCssSegment e _ h
        simp [selRank] at this
      · have := rank_mem_roleSegment e _ h
        simp [selRank] at this
      · have := rank_mem_textSegment e _ h
        simp [selRank] at this
      · have := rank_mem_parentSegment e _ h
        simp [selRank] at this
    · intro hc
      exact ⟨e.labelText,
        by simp [generateSemanticSelectors, labelSegment, hc, List.mem_append]⟩
  · constructor
    · rintro ⟨v, hv⟩
      rcases mem_gen_cases hv with h | h | h | h | h | h | h | h
      · have := rank_mem_idSegment e _ h
        simp [selRank] at this
      · have := rank_mem_labelSegment e _ h
        simp [selRank] at this
      · unfold nameSegment at h
        split at h
        · assumption
        · simp at h
      · have := rank_mem_placeholderSegment e _ h
        simp [selRank] at this
      · have := rank_mem_pseudoCssSegment e _ h
        simp [selRank] at this
      · have := rank_mem_roleSegment e _ h
        simp [selRank] at this
      · have := rank_mem_textSegment e _ h
        simp [selRank] at this
      · have := rank_mem_parentSegment e _ h
        simp [selRank] at this
    · intro hc
      exact ⟨e.name,
        by simp [generateSemanticSelectors, nameSegment, hc.1, hc.2, List.mem_append]⟩
  · constructor
    · rintro ⟨v, hv⟩
      rcases mem_gen_cases hv with h | h | h | h | h | h | h | h
      · have := rank_mem_idSegment e _ h
        simp [selRank] at this
      · have := rank_mem_labelSegment e _ h
        simp [selRank] at this
      · have := rank_mem_nameSegment e _ h
        simp [selRank] at this
      · unfold placeholderSegment at h
        split at h
        · assumption
        · simp at h
      · have := rank_mem_pseudoCssSegment e _ h
        simp [selRank] at this
      · have := rank_mem_roleSegment e _ h
        simp [selRank] at this
      · have := rank_mem_textSegment e _ h
        simp [selRank] at this
      · have := rank_mem_parentSegment e _ h
        simp [selRank] at this
    · intro hc
      exact ⟨e.placeholder,
        by simp [generateSemanticSelectors, placeholderSegment, hc, List.mem_append]⟩
  · intro s hs
    unfold pseudoCssSegment at hs
    split at hs
    · assumption
    · simp at hs
  · intro hp s hs
    rcases mem_gen_cases hs with h | h | h | h | h | h | h | h
    · exact ⟨isRole_false_of_rank (rank_mem_idSegment e _ h) (by omega),
        isText_false_of_rank (rank_mem_idSegment e _ h) (by omega)⟩
    · exact ⟨isRole_false_of_rank (rank_mem_labelSegment e _ h) (by omega),
        isText_false_of_rank (rank_mem_labelSegment e _ h) (by omega)⟩
    · exact ⟨isRole_false_of_rank (rank_mem_nameSegment e _ h) (by omega),
        isText_false_of_rank (rank_mem_nameSegment e _ h) (by omega)⟩
    · exact ⟨isRole_false_of_rank (rank_mem_placeholderSegment e _ h) (by omega),
        isText_false_of_rank (rank_mem_placeholderSegment e _ h) (by omega)⟩
    · exact ⟨isRole_false_of_rank (rank_mem_pseudoCssSegment e _ h) (by omega),
        isText_false_of_rank (rank_mem_pseudoCssSegment e _ h) (by omega)⟩
    · simp [roleSegment, hp] at h
    · simp [textSegment, hp] at h
    · exact ⟨isRole_false_of_rank (rank_mem_parentSegment e _ h) (by omega),
        isText_false_of_rank (rank_mem_parentSegment e _ h) (by omega)⟩

/-- A plain descriptor with a stable id. -/
def selDemo : SomElement :=
  { somId := "1", tag := "button", role := "button", text := "Submit",
    ariaLabel := "", labelText := "", placeholder := "", name := "",
    type := "submit", id := "submit-btn", className := "",
    bbox := ⟨0, 0, 10, 10⟩, hasVisiblePseudoElement := false, parent := none }

/-- A descriptor flagged as rendered via generated content. -/
def selPseudoDemo : SomElement :=
  { selDemo with hasVisiblePseudoElement := true, id := "" }

/-- Witness for `generateSemanticSelectors_spec` at concrete
descriptors. -/
theorem generateSemanticSelectors_spec_witness :
    (∃ v, TypedSelector.id v ∈ generateSemanticSelectors selDemo)
    ∧ (∀ s ∈ generateSemanticSelectors selPseudoDemo,
        s.isRole = false ∧ s.isText = false) :=
  ⟨((generateSemanticSelectors_spec selDemo).2.1).mpr (by decide),
   (generateSemanticSelectors_spec selPseudoDemo).2.2.2.2.2.2 rfl⟩

/-! ## Target reconciler (`resolveSomTarget` in the compiled handler)

Duplicate-marker resolution: every live node still carrying the queried
`tc-som-id` is scored against the original descriptor; the
highest-scoring candidate wins, ties broken by lowest index; a best
score of zero raises the re-annotation-required signal
(`SomReannotationRequiredError` in the source). -/

/-- List-based model of JS `String.prototype.trim`. -/
def jsTrim (s : String) : String :=
  String.mk ((((s.toList.dropWhile Char.isWhitespace).reverse).dropWhile
    Char.isWhitespace).reverse)

/-- List-based model of JS `String.prototype.toLowerCase`. -/
def jsToLower (s : String) : String :=
  String.mk (s.toList.map Char.toLower)

/-- Split a character list at whitespace characters. -/
def splitWsAux : List Char → List Char → List (List Char)
  | [], acc => [acc.reverse]
  | c :: rest, acc =>
    if c.isWhitespace then acc.reverse :: splitWsAux rest []
    else splitWsAux rest (c :: acc)

/-- Code: `className.split(/\s+/).map(t => t.trim()).filter(Boolean)`: the
class tokens of a `className` string (runs of whitespace produce empty
fragments, which the filter drops, so the token multiset matches the
source's `/\s+/` split). -/
def classTokens (s : String) : List String :=
  (((splitWsAux s.toList []).map String.mk).map jsTrim).filter (fun t => t ≠ "")

/-- One live DOM node carrying the queried marker id, as captured by the
page-side query of `resolveSomTarget` (discovery index is its position
in the query result). -/
structure DupCandidate where
  tag : String
  className : String
  text : String
  ariaLabel : String
  bbox : Rect
deriving DecidableEq

/-- Adds +5 when the candidate tag matches a non-empty expected tag. -/
def tagScore (exp : SomElement) (c : DupCandidate) : ℕ :=
  if c.tag = jsToLower exp.tag ∧ jsToLower exp.tag ≠ "" then 5 else 0

/-- Adds +5 for full, +3 for partial class-token overlap (only when the
expected descriptor has class tokens). -/
def classScore (exp : SomElement) (c : DupCandidate) : ℕ :=
  if classTokens exp.className ≠ [] then
    (if (classTokens exp.className).all
        (fun t => (classTokens c.className).contains t) then 5
     else if (classTokens exp.className).any
        (fun t => (classTokens c.className).contains t) then 3
     else 0)
  else 0

/-- Adds +4 for exact, +2 for substring text match (only when the expected
text is non-empty after trimming). -/
def textScore (exp : SomElement) (c : DupCandidate) : ℕ :=
  if jsTrim exp.text ≠ "" then
    (if jsTrim c.text = jsTrim exp.text then 4
     else if strIncludes (jsTrim c.text) (jsTrim exp.text) then 2
     else 0)
  else 0

/-- Adds +2 for an accessible-name match. -/
def ariaScore (exp : SomElement) (c : DupCandidate) : ℕ :=
  if jsTrim exp.ariaLabel ≠ "" ∧ jsTrim c.ariaLabel = jsTrim exp.ariaLabel then 2
  else 0

/-- Adds +2 when width and height are within 2px, +1 within 6px (only when
the expected bounding box has non-zero width and height). -/
def bboxScore (exp : SomElement) (c : DupCandidate) : ℕ :=
  if exp.bbox.width ≠ 0 ∧ exp.bbox.height ≠ 0 then
    (if |c.bbox.width - exp.bbox.width| < 2 ∧ |c.bbox.height - exp.bbox.height| < 2 then 2
     else if |c.bbox.width - exp.bbox.width| < 6
        ∧ |c.bbox.height - exp.bbox.height| < 6 then 1
     else 0)
  else 0

/-- Similarity score of one candidate against the original descriptor. -/
def scoreCandidate (exp : SomElement) (c : DupCandidate) : ℕ :=
  tagScore exp c + classScore exp c + textScore exp c + ariaScore exp c
    + bboxScore exp c

/-- The body of the best-candidate loop: take the new candidate exactly
when it scores strictly higher, or ties with a lower index. -/
def pickStep (b c : ℕ × ℕ) : ℕ × ℕ :=
  if c.2 > b.2 ∨ (c.2 = b.2 ∧ c.1 < b.1) then c else b

/-- Result record of `resolveSomTarget` (candidates omitted). -/
structure SomResolution where
  index : ℕ
  duplicateCount : ℕ
deriving DecidableEq

/-- Outcome: a resolution, or the re-annotation-required signal. -/
inductive ResolveOutcome where
  | ok (r : SomResolution)
  | refreshRequired (message : String)
deriving DecidableEq

/-- Code: `resolveSomTarget(elementRef, expected)` over the scored duplicate
list: zero or one candidate resolves to index 0 directly; otherwise the
first maximum of the scores wins unless the best score is ≤ 0. -/
def resolveSomTarget (elementRef : String) (exp : SomElement)
    (dups : List DupCandidate) : ResolveOutcome :=
  if dups.length ≤ 1 then .ok ⟨0, dups.length⟩
  else
    match (dups.map (scoreCandidate exp)).enum with
    | [] => .ok ⟨0, dups.length⟩
    | b :: t =>
      if ((b :: t).foldl pickStep b).2 ≤ 0 then
        .refreshRequired ("Duplicate SoM id \"" ++ elementRef
          ++ "\" no longer matches original element")
      else .ok ⟨((b :: t).foldl pickStep b).1, dups.length⟩

theorem pickStep_self (b : ℕ × ℕ) : pickStep b b = b := by
  simp [pickStep]

theorem fst_le_of_mem_enumFrom {α : Type} :
    ∀ (l : List α) (k : ℕ) (p : ℕ × α), p ∈ List.enumFrom k l → k ≤ p.1 := by
  intro l
  induction l with
  | nil => intro k p hp; simp [List.enumFrom] at hp
  | cons a t ih =>
    intro k p hp
    rcases List.mem_cons.mp hp with rfl | hp'
    · exact le_refl k
    · have := ih (k + 1) p hp'
      omega

theorem pairwise_fst_lt_enumFrom {α : Type} :
    ∀ (l : List α) (k : ℕ),
      List.Pairwise (fun p q : ℕ × α => p.1 < q.1) (List.enumFrom k l) := by
  intro l
  induction l with
  | nil => intro k; simp [List.enumFrom]
  | cons a t ih =>
    intro k
    refine List.pairwise_cons.mpr ⟨fun p hp => ?_, ih (k + 1)⟩
    have := fst_le_of_mem_enumFrom t (k + 1) p hp
    omega

theorem foldl_pickStep_spec :
    ∀ (l : List (ℕ × ℕ)) (b : ℕ × ℕ),
      List.Pairwise (fun p q : ℕ × ℕ => p.1 < q.1) (b :: l) →
      (l.foldl pickStep b) ∈ b :: l
      ∧ (∀ p ∈ b :: l, p.2 ≤ (l.foldl pickStep b).2)
      ∧ (∀ p ∈ b :: l, p.1 < (l.foldl pickStep b).1 → p.2 < (l.foldl pickStep b).2)
      ∧ ((l.foldl pickStep b) = b ∨ b.2 < (l.foldl pickStep b).2) := by
  intro l
  induction l with
  | nil =>
    intro b _
    refine ⟨by simp, ?_, ?_, Or.inl rfl⟩
    · intro p hp
      simp only [List.foldl_nil]
      rcases List.mem_singleton.mp hp with rfl
      exact le_refl _
    · intro p hp
      simp only [List.foldl_nil]
      rcases List.mem_singleton.mp hp with rfl
      omega
  | cons c l ih =>
    intro b hpw
    have hb_lt : b.1 < c.1 := (List.pairwise_cons.mp hpw).1 c (by simp)
    rw [List.foldl_cons]
    by_cases hc : c.2 > b.2 ∨ (c.2 = b.2 ∧ c.1 < b.1)
    · have hcb : b.2 < c.2 := by
        rcases hc with h | ⟨h1, h2⟩
        · exact h
        · omega
      rw [show pickStep b c = c from by simp [pickStep, hc]]
      have hpw' : List.Pairwise (fun p q : ℕ × ℕ => p.1 < q.1) (c :: l) :=
        (List.pairwise_cons.mp hpw).2
      obtain ⟨ha, hb', hc', _⟩ := ih c hpw'
      have hcr : c.2 ≤ (l.foldl pickStep c).2 := hb' c (by simp)
      refine ⟨List.mem_cons_of_mem b ha, ?_, ?_, ?_⟩
      · intro p hp
        rcases List.mem_cons.mp hp with rfl | hp'
        · omega
        · exact hb' p hp'
      · intro p hp hlt
        rcases List.mem_cons.mp hp with rfl | hp'
        · omega
        · exact hc' p hp' hlt
      · right
        omega
    · rw [show pickStep b c = b from by simp [pickStep, hc]]
      have hnc : ¬ c.2 > b.2 := fun h => hc (Or.inl h)
      have hpw' : List.Pairwise (fun p q : ℕ × ℕ => p.1 < q.1) (b :: l) := by
        have hsub : (b :: l).Sublist (b :: c :: l) :=
          List.Sublist.cons₂ b (List.sublist_cons_self c l)
        exact hpw.sublist hsub
      obtain ⟨ha, hb', hc', hd⟩ := ih b hpw'
      have hbr : b.2 ≤ (l.foldl pickStep b).2 := hb' b (by simp)
      refine ⟨?_, ?_, ?_, hd⟩
      · rcases List.mem_cons.mp ha with h | h
        · rw [h]
          simp
        · exact List.mem_cons_of_mem b (List.mem_cons_of_mem c h)
      · intro p hp
        rcases List.mem_cons.mp hp with rfl | hp'
        · exact hb' p (by simp)
        · rcases List.mem_cons.mp hp' with rfl | hp''
          · omega
          · exact hb' p (List.mem_cons_of_mem b hp'')
      · intro p hp hlt
        rcases List.mem_cons.mp hp with rfl | hp'
        · exact hc' p (by simp) hlt
        · rcases List.mem_cons.mp hp' with rfl | hp''
          · rcases hd with heq | hgt
            · rw [heq] at hlt
              omega
            · omega
          · exact hc' p (List.mem_cons_of_mem b hp'') hlt

/-- C3: with more than one live candidate, `resolveSomTarget` scores
each against the original descriptor (+5 tag, +5/+3 full/partial class
overlap, +4/+2 exact/substring text, +2 accessible name, +2/+1 bounding
box within 2px/6px — the definition of `scoreCandidate`), picks the
highest score with ties broken by lowest index (the chosen index beats
every candidate strictly below it), raises the re-annotation signal
instead of choosing when the best score is ≤ 0, and a candidate matching
exactly on tag, full class-token set and exact text always outscores one
matching only on tag. -/
theorem resolveSomTarget_spec (ref : String) (exp : SomElement)
    (dups : List DupCandidate) (hlen : 2 ≤ dups.length) :
    ((∀ p ∈ (dups.map (scoreCandidate exp)).enum, p.2 = 0) →
      ∃ msg, resolveSomTarget ref exp dups = .refreshRequired msg)
    ∧ (∀ r, resolveSomTarget ref exp dups = .ok r →
        r.duplicateCount = dups.length
        ∧ ∃ s, (r.index, s) ∈ (dups.map (scoreCandidate exp)).enum
            ∧ 0 < s
            ∧ (∀ p ∈ (dups.map (scoreCandidate exp)).enum, p.2 ≤ s)
            ∧ (∀ p ∈ (dups.map (scoreCandidate exp)).enum, p.1 < r.index → p.2 < s))
    ∧ (∀ cA cB : DupCandidate,
        jsToLower exp.tag ≠ "" → cA.tag = jsToLower exp.tag →
        classTokens exp.className ≠ [] →
        (classTokens exp.className).all
          (fun t => (classTokens cA.className).contains t) = true →
        jsTrim exp.text ≠ "" → jsTrim cA.text = jsTrim exp.text →
        cB.tag = jsToLower exp.tag →
        (classTokens exp.className).any
          (fun t => (classTokens cB.className).contains t) = false →
        jsTrim cB.text ≠ jsTrim exp.text →
        strIncludes (jsTrim cB.text) (jsTrim exp.text) = false →
        scoreCandidate exp cB < scoreCandidate exp cA) := by
  have hnotle : ¬ dups.length ≤ 1 := by omega
  have henum : (dups.map (scoreCandidate exp)).enum.length = dups.length := by
    simp [List.enum_length]
  have hpw0 : List.Pairwise (fun p q : ℕ × ℕ => p.1 < q.1)
      ((dups.map (scoreCandidate exp)).enum) := pairwise_fst_lt_enumFrom _ 0
  refine ⟨?_, ?_, ?_⟩
  · intro hall
    cases hsc : (dups.map (scoreCandidate exp)).enum with
    | nil =>
      rw [hsc] at henum
      simp at henum
      omega
    | cons b t =>
      rw [hsc] at hpw0
      have hmem : ((b :: t).foldl pickStep b) ∈ b :: t := by
        rw [List.foldl_cons, pickStep_self]
        exact (foldl_pickStep_spec t b hpw0).1
      have hzero : ((b :: t).foldl pickStep b).2 = 0 := by
        refine hall _ ?_
        rw [hsc]
        exact hmem
      refine ⟨"Duplicate SoM id \"" ++ ref ++ "\" no longer matches original element", ?_⟩
      rw [resolveSomTarget, if_neg hnotle, hsc]
      simp only [hzero]
      rfl
  · intro r hr
    cases hsc : (dups.map (scoreCandidate exp)).enum with
    | nil =>
      rw [hsc] at henum
      simp at henum
      omega
    | cons b t =>
      rw [hsc] at hpw0
      rw [resolveSomTarget, if_neg hnotle, hsc] at hr
      have hr2 : (if ((b :: t).foldl pickStep b).2 ≤ 0 then
            ResolveOutcome.refreshRequired ("Duplicate SoM id \"" ++ ref
              ++ "\" no longer matches original element")
          else ResolveOutcome.ok ⟨((b :: t).foldl pickStep b).1, dups.length⟩)
          = ResolveOutcome.ok r := hr
      clear hr
      by_cases hz : ((b :: t).foldl pickStep b).2 ≤ 0
      · rw [if_pos hz] at hr2
        exact absurd hr2 (by simp)
      · rw [if_neg hz] at hr2
        have hconv : (b :: t).foldl pickStep b = t.foldl pickStep b := by
          rw [List.foldl_cons, pickStep_self]
        obtain ⟨hmem, hmax, hfirst, _⟩ := foldl_pickStep_spec t b hpw0
        rw [hconv] at hz hr2
        simp only [ResolveOutcome.ok.injEq] at hr2
        subst hr2
        refine ⟨rfl, (t.foldl pickStep b).2, ?_, by omega, ?_, ?_⟩
        · exact hmem
        · intro p hp
          exact hmax p hp
        · intro p hp hlt
          exact hfirst p hp hlt
  · intro cA cB h1 h2 h3 h4 h5 h6 h7 h8 h9 h10
    have hA : 14 ≤ scoreCandidate exp cA := by
      have ht : tagScore exp cA = 5 := by
        rw [tagScore, if_pos ⟨h2, h1⟩]
      have hcl : classScore exp cA = 5 := by
        rw [classScore, if_pos h3, if_pos h4]
      have htx : textScore exp cA = 4 := by
        rw [textScore, if_pos h5, if_pos h6]
      rw [scoreCandidate, ht, hcl, htx]
      omega
    have hB : scoreCandidate exp cB ≤ 9 := by
      have ht : tagScore exp cB = 5 := by
        rw [tagScore, if_pos ⟨h7, h1⟩]
      have hcl : classScore exp cB = 0 := by
        have hallB : (classTokens exp.className).all
            (fun t => (classTokens cB.className).contains t) = false := by
          cases hx : (classTokens exp.className).all
              (fun t => (classTokens cB.className).contains t) with
          | false => rfl
          | true =>
            exfalso
            cases hcls : classTokens exp.className with
            | nil => exact h3 hcls
            | cons t0 ts =>
              rw [hcls] at hx h8
              simp only [List.all_cons, Bool.and_eq_true] at hx
              simp only [List.any_cons, Bool.or_eq_false_iff] at h8
              rw [hx.1] at h8
              simp at h8
        rw [classScore, if_pos h3, hallB, h8]
        simp
      have htx : textScore exp cB = 0 := by
        rw [textScore, if_pos h5, if_neg h9, if_neg (by simp [h10])]
      have har : ariaScore exp cB ≤ 2 := by
        rw [ariaScore]
        split <;> omega
      have hbb : bboxScore exp cB ≤ 2 := by
        rw [bboxScore]
        split
        · split
          · omega
          · split <;> omega
        · omega
      rw [scoreCandidate, ht, hcl, htx]
      omega
    omega

/-- Original descriptor used in the duplicate-resolution witness (zero
bounding box so the size bonus is vacuous). -/
def expDemo : SomElement :=
  { somId := "3", tag := "button", role := "button", text := "Submit",
    ariaLabel := "", labelText := "", placeholder := "", name := "",
    type := "", id := "", className := "primary large",
    bbox := ⟨0, 0, 0, 0⟩, hasVisiblePseudoElement := false, parent := none }

/-- Candidate matching only on tag. -/
def candB : DupCandidate :=
  { tag := "button", className := "other", text := "Cancel", ariaLabel := "",
    bbox := ⟨0, 0, 0, 0⟩ }

/-- Candidate matching on tag, full class-token set and exact text. -/
def candA : DupCandidate :=
  { tag := "button", className := "primary large extra", text := "Submit",
    ariaLabel := "", bbox := ⟨0, 0, 0, 0⟩ }

/-- Witness for `resolveSomTarget_spec` at a concrete duplicate pair:
the full-match candidate (at index 1) is chosen over the tag-only
candidate (at index 0). -/
theorem resolveSomTarget_spec_witness :
    (∃ s, ((1 : ℕ), s) ∈ (([candB, candA].map (scoreCandidate expDemo)).enum)
        ∧ 0 < s
        ∧ (∀ p ∈ ([candB, candA].map (scoreCandidate expDemo)).enum, p.2 ≤ s)
        ∧ (∀ p ∈ ([candB, candA].map (scoreCandidate expDemo)).enum,
            p.1 < 1 → p.2 < s))
    ∧ scoreCandidate expDemo candB < scoreCandidate expDemo candA := by
  have h := resolveSomTarget_spec "3" expDemo [candB, candA] (by decide)
  refine ⟨?_, h.2.2 candA candB (by decide) (by decide) (by decide) (by decide)
    (by decide) (by decide) (by decide) (by decide) (by decide) (by decide)⟩
  exact (h.2.1 ⟨1, 2⟩ (by decide)).2

/-! ## extract() result shaping (`computeExtractResult` in `index.ts`)

`castToNumber` wraps JS `Number(value)` plus an `isFinite` check.
`jsNumber` models `Number()` on plain decimal literals (optional sign,
optional fraction; the empty/whitespace string is 0); hex and exponent
forms are not modelled — every string the claims touch is a plain
decimal or non-numeric. -/

/-- Value of a non-empty all-digit character list. -/
def digitsVal? (l : List Char) : Option ℕ :=
  if l ≠ [] ∧ l.all Char.isDigit then
    some (l.foldl (fun a c => 10 * a + (c.toNat - 48)) 0)
  else none

/-- Split a character list at the first dot. -/
def splitDot : List Char → (List Char × Option (List Char))
  | [] => ([], none)
  | c :: t =>
    if c = '.' then ([], some t)
    else ((splitDot t).1.cons c, (splitDot t).2)

/-- Unsigned decimal literal value. -/
def jsNumberCore (l : List Char) : Option ℚ :=
  match splitDot l with
  | (ip, none) => (digitsVal? ip).map (fun n => (n : ℚ))
  | (ip, some fp) =>
    if ip = [] ∧ fp = [] then none
    else
      match (if ip = [] then some 0 else digitsVal? ip),
          (if fp = [] then some 0 else digitsVal? fp) with
      | some ipv, some fpv =>
        some ((ipv : ℚ) + (fpv : ℚ) / ((10 : ℚ) ^ fp.length))
      | _, _ => none

/-- Model of JS `Number(s)` (`none` = NaN). -/
def jsNumber (s : String) : Option ℚ :=
  match (jsTrim s).toList with
  | [] => some 0
  | '+' :: rest => jsNumberCore rest
  | '-' :: rest => (jsNumberCore rest).map (fun q => -q)
  | l => jsNumberCore l

/-- Code: `castToNumber`: throws on a non-finite parse. -/
def castToNumber (value : String) (fieldName : String) : Except String ℚ :=
  match jsNumber value with
  | some q => .ok q
  | none => .error ("Expected numeric value for " ++ fieldName ++ ", received: " ++ value)

/-- Code: `castStringArrayToNumbers`. -/
def castStringArrayToNumbers (values : List String) (fieldName : String) :
    Except String (List ℚ) :=
  values.mapM (fun v => castToNumber v fieldName)

/-- JS truthiness of the optional `extractedContent` string. -/
def optTruthy (o : Option String) : Bool :=
  match o with
  | some s => s ≠ ""
  | none => false

/-- Code: `return_type` values of `ExtractOptions`. -/
inductive ExtractReturnType where
  | str
  | strArray
  | intArray
  | intVal
deriving DecidableEq

/-- The values `computeExtractResult` can return. -/
inductive ExtractValue where
  | s (v : String)
  | sList (v : List String)
  | n (v : ℚ)
  | nList (v : List ℚ)
deriving DecidableEq

/-- Code: `computeExtractResult(result, options)` over the oracle's
`extractedContent` (optional string) and `extractedContentList`
(defaulted to `[]` by the source's `?? []`). -/
def computeExtractResult (returnType : Option ExtractReturnType)
    (content : Option String) (lst : List String) : Except String ExtractValue :=
  if !optTruthy content ∧ lst.length = 0 then
    .error "LLM response did not include extracted content."
  else
    match returnType.getD .str with
    | .strArray =>
      .ok (.sList (if 0 < lst.length then lst
        else if optTruthy content then [content.getD ""] else []))
    | .intArray =>
      (castStringArrayToNumbers
        (if 0 < lst.length then lst
         else if optTruthy content then [content.getD ""] else [])
        "extractedContentList").map .nList
    | .intVal =>
      if optTruthy content then (castToNumber (content.getD "") "extractedContent").map .n
      else if lst.length = 1 then
        (castToNumber (lst.headD "") "extractedContentList").map .n
      else .error "Expected a single numeric value in extractedContent."
    | .str =>
      if 1 < lst.length then .ok (.sList lst)
      else if lst.length = 1 then .ok (.s (lst.headD ""))
      else if optTruthy content then .ok (.s (content.getD ""))
      else .error "Expected extractedContent to be a string."

/-- C8: `extract()` coercion — `int_array` over `["12","7"]` yields
`[12, 7]`; `["12","abc"]` fails with a numeric-coercion error naming the
offending value; a response with neither a truthy `extractedContent` nor
a non-empty list throws; and for `return_type = "string"` a list with
more than one entry is returned as the list itself, never coerced to a
single string. -/
theorem computeExtractResult_spec :
    (computeExtractResult (some .intArray) none ["12", "7"]
        = .ok (.nList [12, 7]))
    ∧ (computeExtractResult (some .intArray) none ["12", "abc"]
        = .error "Expected numeric value for extractedContentList, received: abc")
    ∧ (∀ (rt : Option ExtractReturnType) (content : Option String) (lst : List String),
        optTruthy content = false → lst = [] →
        computeExtractResult rt content lst
          = .error "LLM response did not include extracted content.")
    ∧ (∀ (content : Option String) (lst : List String), 1 < lst.length →
        computeExtractResult (some .str) content lst = .ok (.sList lst)) := by
  refine ⟨rfl, rfl, ?_, ?_⟩
  · intro rt content lst hc hl
    subst hl
    rw [computeExtractResult, if_pos (by simp [hc])]
  · intro content lst hl
    have h2 : ¬((!optTruthy content) = true ∧ lst.length = 0) := by
      intro hcon
      exact absurd hcon.2 (by omega)
    rw [computeExtractResult, if_neg h2]
    simp only [Option.getD_some]
    rw [if_pos hl]

/-- Witness for `computeExtractResult_spec` at concrete inputs. -/
theorem computeExtractResult_spec_witness :
    (computeExtractResult (some .str) none []
        = .error "LLM response did not include extracted content.")
    ∧ (computeExtractResult (some .str) none ["a", "b"] = .ok (.sList ["a", "b"])) :=
  ⟨computeExtractResult_spec.2.2.1 (some .str) none [] rfl rfl,
   computeExtractResult_spec.2.2.2 none ["a", "b"] (by decide)⟩

/-! ## Commands and results (`som-types.ts`) -/

/-- Code: `InteractionAction` enum. -/
inductive InteractionAction where
  | click
  | doubleClick
  | rightClick
  | hover
  | mouseDown
  | mouseUp
  | drag
  | fill
  | type
  | clear
  | press
  | pressSequentially
  | select
  | check
  | uncheck
  | focus
  | blur
  | scroll
  | scrollIntoView
  | waitFor
  | navigate
  | goBack
  | goForward
  | reload
deriving DecidableEq

/-- Percentage-of-viewport coordinate. -/
structure Coordinate where
  x : ℚ
  y : ℚ
deriving DecidableEq

/-- Code: `SomCommand` (fields the modelled paths read; scroll/mouse tuning
fields are carried by the source but never branched on here). -/
structure SomCommand where
  elementRef : Option String := none
  action : InteractionAction
  coord : Option Coordinate := none
  value : Option String := none
  fromCoord : Option Coordinate := none
  toCoord : Option Coordinate := none
  force : Bool := false
  durationSeconds : Option ℚ := none
deriving DecidableEq

/-- Code: `CommandRunStatus`. -/
inductive CommandRunStatus where
  | success
  | failure
deriving DecidableEq

/-- Code: `CommandAttempt`. -/
structure CommandAttempt where
  command : String
  status : CommandRunStatus
  error : Option String := none
deriving DecidableEq

/-- Code: `SemanticCommandResult` (the hover/focus mutation list is not
modelled; no claim touches it). -/
structure SemanticCommandResult where
  failedAttempts : List CommandAttempt
  successAttempt : Option CommandAttempt := none
  error : Option String := none
  status : CommandRunStatus
deriving DecidableEq

/-- Code: `isNavigationAction` from `index.ts` (the same four actions the
handler's navigation branch tests). -/
def isNavigationAction (a : InteractionAction) : Bool :=
  match a with
  | .navigate | .goBack | .goForward | .reload => true
  | _ => false

/-! ## `runCommand` dispatch (`som-handler.ts`)

The claims about `runCommand` concern its early returns, before any
selector or coordinate work happens.  The rest of the pipeline
(duplicate resolution, the `tc-som-id` selector, semantic selectors,
heuristics and the coordinate fallback) is abstracted as an environment;
the theorem shows the early-return paths never invoke it.  The
page-closed throw at the top of `runCommand` is outside the model: the
claims assume a live page. -/

/-- An externally visible driver operation dispatched by `runCommand`. -/
inductive Dispatch where
  | navigationOp (a : InteractionAction)
  | coordinateOp (a : InteractionAction) (c : Coordinate)
  | selectorAttempt (desc : String)
  | coordinateFallback (a : InteractionAction)
deriving DecidableEq

/-- Abstracted continuations of `runCommand`. -/
structure RunEnv where
  navigate : SomCommand → SemanticCommandResult
  coordAct : SomCommand → SemanticCommandResult
  deep : SomElement → SomCommand → SemanticCommandResult × List Dispatch

/-- Code: `this.somMap.get(ref)` on the insertion-ordered map. -/
def somMapGet (m : List (String × SomElement)) (k : String) : Option SomElement :=
  (m.find? (fun p => p.1 = k)).map (fun p => p.2)

/-- The dispatch structure of `runCommand`: navigation actions bypass
element resolution; a coordinate without a marker reference goes to the
percentage-coordinate executor; otherwise the marker must be present
and mapped, or the command resolves to a failure result without
dispatching anything. -/
def runCommand (env : RunEnv) (somMap : List (String × SomElement))
    (cmd : SomCommand) : SemanticCommandResult × List Dispatch :=
  if isNavigationAction cmd.action then
    (env.navigate cmd, [.navigationOp cmd.action])
  else if cmd.coord.isSome ∧ cmd.elementRef.isNone then
    (env.coordAct cmd, [.coordinateOp cmd.action (cmd.coord.getD ⟨0, 0⟩)])
  else
    match cmd.elementRef with
    | none =>
      ({ failedAttempts := [],
         error := some "Command must have either elementRef or coord specified",
         status := .failure }, [])
    | some ref =>
      match somMapGet somMap ref with
      | none =>
        ({ failedAttempts := [],
           error := some ("Element with SoM ID \"" ++ ref ++ "\" not found in map"),
           status := .failure }, [])
      | some el => env.deep el cmd

/-- C10: a non-navigation command with no coordinate whose marker
reference is absent or unmapped resolves (without throwing) to a failure
result with an explanatory error and an empty failed-attempts list, and
dispatches no selector attempt or coordinate action — regardless of how
the rest of the pipeline would behave. -/
theorem runCommand_missing_ref (env : RunEnv) (somMap : List (String × SomElement))
    (cmd : SomCommand) (hnav : isNavigationAction cmd.action = false)
    (hcoord : cmd.coord = none)
    (href : cmd.elementRef = none
      ∨ ∃ r, cmd.elementRef = some r ∧ somMapGet somMap r = none) :
    (runCommand env somMap cmd).1.status = .failure
    ∧ (runCommand env somMap cmd).1.failedAttempts = []
    ∧ (runCommand env somMap cmd).1.error.isSome = true
    ∧ (runCommand env somMap cmd).2 = [] := by
  rcases href with h | ⟨r, h1, h2⟩
  · refine ⟨?_, ?_, ?_, ?_⟩ <;> simp [runCommand, hnav, hcoord, h]
  · refine ⟨?_, ?_, ?_, ?_⟩ <;> simp [runCommand, hnav, hcoord, h1, h2]

/-- A trivial environment for the witness. -/
def envDemo : RunEnv :=
  { navigate := fun _ => { failedAttempts := [], status := .success },
    coordAct := fun _ => { failedAttempts := [], status := .success },
    deep := fun _ _ => ({ failedAttempts := [], status := .success }, []) }

/-- A click on a marker id that is not in the (empty) map. -/
def cmdMissingDemo : SomCommand := { action := .click, elementRef := some "9" }

/-- Witness for `runCommand_missing_ref` at a concrete command. -/
theorem runCommand_missing_ref_witness :
    (runCommand envDemo [] cmdMissingDemo).1.status = .failure
    ∧ (runCommand envDemo [] cmdMissingDemo).1.failedAttempts = []
    ∧ (runCommand envDemo [] cmdMissingDemo).1.error.isSome = true
    ∧ (runCommand envDemo [] cmdMissingDemo).2 = [] :=
  runCommand_missing_ref envDemo [] cmdMissingDemo rfl rfl
    (Or.inr ⟨"9", rfl, rfl⟩)

/-! ## Orchestrator: `act()` (`index.ts`)

The act loop is modelled as a step interpreter consuming one oracle
response per round trip.  The environment is quiescent: page
stabilization and SoM refreshes succeed, and command execution is the
pure function `exec` (no navigation interruptions or re-annotation
errors — the claims below concern the wait/step-completed paths, which
never reach those recoveries).  Alongside its outcome, each step
reports the commands it dispatched through the action executor. -/

/-- Oracle response fields for `act`/`verify`/`extract`
(`AiActionResult` in `types.ts`; the list fields carry the source's
`?? []` defaults). -/
structure AiActionResult where
  preCommands : List SomCommand := []
  commandsToRun : List SomCommand := []
  needsRetryAfterPreActions : Bool := false
  shouldWait : Bool := false
  waitReason : Option String := none
  requestSomRefresh : Bool := false
  somRefreshReason : Option String := none
  stepCompleted : Bool := false
  verificationSuccess : Option Bool := none
  confidence : Option ℚ := none
  verificationReason : Option String := none
  extractedContent : Option String := none
  extractedContentList : List String := []
deriving DecidableEq

/-- Code: `AiActResult`: what `act()` returns. -/
structure AiActResult where
  commandResults : List SemanticCommandResult
  status : CommandRunStatus
  error : Option String := none
deriving DecidableEq

/-- Loop state of `act()`: the wait counter, the pre-action retry
counter and the accumulated command results. -/
structure ActState where
  waitCount : ℕ
  preActionRetryCount : ℕ
  aggregate : List SemanticCommandResult
deriving DecidableEq

/-- State at entry of `act()`. -/
def initActState : ActState := ⟨0, 0, []⟩

/-- Decimal rendering of a rational whose denominator is 1 (all the
JS numbers the modelled messages interpolate are integral). -/
def qRender (q : ℚ) : String :=
  if q.den = 1 then toString q.num
  else toString q.num ++ "/" ++ toString q.den

/-- Code: `CommandRunStatus` enum string values. -/
def statusStr : CommandRunStatus → String
  | .success => "success"
  | .failure => "failure"

/-- One attempt as rendered into a failure message
(`normalizeAttempt` plus the `command | status | error` fallback of
`formatFailedAttemptsLine`; the primary `JSON.stringify` rendering is
modelled by this textual form — no claim inspects it). -/
def renderAttempt (a : CommandAttempt) : String :=
  (if a.command ≠ "" then a.command else "unknown") ++ " | " ++ statusStr a.status
    ++ (match a.error with
        | some e => if e ≠ "" then " | " ++ e else ""
        | none => "")

/-- Code: `formatFailedAttemptsLine`. -/
def formatFailedAttemptsLine (attempts : List CommandAttempt) : Option String :=
  if attempts.length = 0 then none
  else some ("Attempts: " ++ String.intercalate "; " (attempts.map renderAttempt))

/-- Code: `clampWaitDuration`: seconds→ms, clamped to [5000, 30000]. -/
def clampWaitDuration (seconds : Option ℚ) : ℚ :=
  min (max (match seconds with | some s => s * 1000 | none => 5000) 5000) 30000

/-- The `WAIT_FOR` duration argument:
`command.durationSeconds ?? (command.value ? Number(command.value) : undefined)`
(a non-numeric `value` is treated as absent in the model). -/
def waitForArg (c : SomCommand) : Option ℚ :=
  c.durationSeconds <|> (c.value.bind fun v => if v ≠ "" then jsNumber v else none)

/-- The failure message thrown when a pre-command fails. -/
def preFailMsg (objective : String) (result : SemanticCommandResult) : String :=
  String.intercalate "\n"
    (["AI action failed during pre-commands for objective: " ++ objective]
      ++ (match result.error with | some e => ["Last error: " ++ e] | none => [])
      ++ (match formatFailedAttemptsLine result.failedAttempts with
          | some l => [l] | none => []))

/-- The failure message thrown when a main command fails. -/
def actFailMsg (objective : String) (result : SemanticCommandResult) : String :=
  String.intercalate "\n"
    (["AI action failed for objective: " ++ objective]
      ++ (match result.error with | some e => ["Last error: " ++ e] | none => [])
      ++ (match formatFailedAttemptsLine result.failedAttempts with
          | some l => [l] | none => []))

/-- Pre-command execution: `WAIT_FOR` is a timed pause recorded as a
synthetic success; any other failure aborts the objective. Returns the
new aggregate (or the thrown message) and the dispatched commands. -/
def runPreCommands (exec : SomCommand → SemanticCommandResult) (objective : String) :
    List SomCommand → List SemanticCommandResult →
      Except String (List SemanticCommandResult) × List SomCommand
  | [], agg => (.ok agg, [])
  | c :: rest, agg =>
    if c.action = .waitFor then
      runPreCommands exec objective rest (agg ++
        [{ failedAttempts := []
           successAttempt := some
             ⟨"await page.waitForTimeout(" ++ qRender (clampWaitDuration (waitForArg c)) ++ ")",
               .success, none⟩
           status := .success }])
    else
      if (exec c).status = .failure then
        (.error (preFailMsg objective (exec c)), [c])
      else
        ((runPreCommands exec objective rest (agg ++ [exec c])).1,
          c :: (runPreCommands exec objective rest (agg ++ [exec c])).2)

/-- Main action-command execution: sequential, stopping at the first
failure (which aborts the objective with `actFailMsg`). -/
def runActionCommands (exec : SomCommand → SemanticCommandResult) (objective : String) :
    List SomCommand → List SemanticCommandResult →
      Except String (List SemanticCommandResult) × List SomCommand
  | [], agg => (.ok agg, [])
  | c :: rest, agg =>
    if (exec c).status = .failure then
      (.error (actFailMsg objective (exec c)), [c])
    else
      ((runActionCommands exec objective rest (agg ++ [exec c])).1,
        c :: (runActionCommands exec objective rest (agg ++ [exec c])).2)

/-- Result of one act-loop iteration. -/
inductive IterResult where
  | continueLoop (st : ActState)
  | finished (res : AiActResult)
  | failed (message : String)
deriving DecidableEq

/-- One iteration of the `act()` loop after the oracle reply arrives,
in source order: `shouldWait` (counter bounded by the retry limit,
commands ignored), `stepCompleted` (immediate success),
`requestSomRefresh` (re-annotate, bump-and-saturate the wait counter),
pre-commands, `needsRetryAfterPreActions` (own counter, wait counter
reset), the implicit wait on an empty command list, and finally the
wait-type then action-type main commands. -/
def actIter (limit : ℕ) (exec : SomCommand → SemanticCommandResult)
    (objective : String) (st : ActState) (r : AiActionResult) :
    IterResult × List SomCommand :=
  if r.shouldWait then
    if limit ≤ st.waitCount then
      (.failed ("LLM requested wait beyond max attempts (" ++ Nat.repr limit ++ ")."), [])
    else
      (.continueLoop { st with waitCount := st.waitCount + 1 }, [])
  else if r.stepCompleted then
    (.finished ⟨st.aggregate, .success, none⟩, [])
  else if r.requestSomRefresh then
    (.continueLoop
      { st with waitCount := min (st.waitCount + 1) limit, preActionRetryCount := 0 }, [])
  else
    match runPreCommands exec objective r.preCommands st.aggregate with
    | (.error msg, disp) => (.failed msg, disp)
    | (.ok agg2, disp) =>
      if r.needsRetryAfterPreActions then
        if limit ≤ st.preActionRetryCount then
          (.failed ("LLM requested retry after pre-actions beyond max attempts ("
            ++ Nat.repr limit ++ ")."), disp)
        else
          (.continueLoop ⟨0, st.preActionRetryCount + 1, agg2⟩, disp)
      else if r.commandsToRun.length = 0 then
        if limit ≤ st.waitCount then
          (.failed ("LLM returned empty commands without allowed flags beyond max wait attempts ("
            ++ Nat.repr limit ++ ")."), disp)
        else
          (.continueLoop ⟨st.waitCount + 1, st.preActionRetryCount, agg2⟩, disp)
      else
        match runActionCommands exec objective
            (r.commandsToRun.filter fun c => c.action ≠ .waitFor) agg2 with
        | (.error msg, disp2) => (.failed msg, disp ++ disp2)
        | (.ok agg3, disp2) => (.finished ⟨agg3, .success, none⟩, disp ++ disp2)

/-- Outcome of running `act()` against a finite list of oracle
responses. -/
inductive ActOutcome where
  | finished (res : AiActResult)
  | failed (message : String)
  | outOfResponses (st : ActState)
deriving DecidableEq

/-- Run the `act()` loop, consuming one oracle response per round
trip. -/
def actRun (limit : ℕ) (exec : SomCommand → SemanticCommandResult)
    (objective : String) :
    ActState → List AiActionResult → ActOutcome × List SomCommand
  | st, [] => (.outOfResponses st, [])
  | st, r :: rest =>
    match actIter limit exec objective st r with
    | (.continueLoop st2, d) =>
      ((actRun limit exec objective st2 rest).1,
        d ++ (actRun limit exec objective st2 rest).2)
    | (.finished res, d) => (.finished res, d)
    | (.failed msg, d) => (.failed msg, d)

theorem listIsPrefixB_self_append (l s : List Char) :
    listIsPrefixB l (l ++ s) = true := by
  induction l with
  | nil => rfl
  | cons c t ih => simp [listIsPrefixB, ih]

theorem listIsInfixB_nil (s : List Char) : listIsInfixB [] s = true := by
  cases s <;> simp [listIsInfixB, listIsPrefixB]

theorem listIsInfixB_append (p l s : List Char) :
    listIsInfixB l (p ++ (l ++ s)) = true := by
  induction p with
  | nil =>
    cases l with
    | nil => simpa using listIsInfixB_nil s
    | cons c t =>
      simp only [List.nil_append, List.cons_append, listIsInfixB, listIsPrefixB,
        Bool.or_eq_true, Bool.and_eq_true]
      exact Or.inl ⟨by simp, listIsPrefixB_self_append t s⟩
  | cons c p' ih =>
    simp only [List.cons_append, listIsInfixB, Bool.or_eq_true]
    exact Or.inr ih

theorem strIncludes_middle (a b c : String) :
    strIncludes (a ++ b ++ c) b = true := by
  unfold strIncludes
  have h : (a ++ b ++ c).toList = a.toList ++ (b.toList ++ c.toList) := by
    simp [String.toList]
  rw [h]
  exact listIsInfixB_append _ _ _

theorem actRun_wait_below (limit : ℕ) (exec : SomCommand → SemanticCommandResult)
    (objective : String) :
    ∀ (responses : List AiActionResult) (st : ActState),
      (∀ r ∈ responses, r.shouldWait = true) →
      st.waitCount + responses.length ≤ limit →
      actRun limit exec objective st responses
        = (.outOfResponses
            ⟨st.waitCount + responses.length, st.preActionRetryCount, st.aggregate⟩, []) := by
  intro responses
  induction responses with
  | nil => intro st _ _; simp [actRun]
  | cons r rs ih =>
    intro st hall hle
    have hw : r.shouldWait = true := hall r (by simp)
    simp only [List.length_cons] at hle
    have hlt : ¬ limit ≤ st.waitCount := by omega
    rw [actRun]
    rw [show actIter limit exec objective st r
        = (.continueLoop { st with waitCount := st.waitCount + 1 }, []) from by
      rw [actIter, if_pos (by rw [hw]), if_neg hlt]]
    show ((actRun limit exec objective { st with waitCount := st.waitCount + 1 } rs).1,
        [] ++ (actRun limit exec objective { st with waitCount := st.waitCount + 1 } rs).2)
      = _
    rw [ih { st with waitCount := st.waitCount + 1 }
      (fun x hx => hall x (by simp [hx]))
      (show st.waitCount + 1 + rs.length ≤ limit by omega)]
    have harith : st.waitCount + 1 + rs.length = st.waitCount + (rs.length + 1) := by
      omega
    simp [harith]

theorem actRun_wait_overflow (limit : ℕ) (exec : SomCommand → SemanticCommandResult)
    (objective : String) :
    ∀ (responses : List AiActionResult) (st : ActState) (rest : List AiActionResult),
      (∀ r ∈ responses, r.shouldWait = true) →
      st.waitCount ≤ limit →
      st.waitCount + responses.length = limit + 1 →
      actRun limit exec objective st (responses ++ rest)
        = (.failed ("LLM requested wait beyond max attempts (" ++ Nat.repr limit ++ ")."),
            []) := by
  intro responses
  induction responses with
  | nil =>
    intro st rest _ hle hsum
    simp only [List.length_nil] at hsum
    omega
  | cons r rs ih =>
    intro st rest hall hle hsum
    have hw : r.shouldWait = true := hall r (by simp)
    by_cases hfull : limit ≤ st.waitCount
    · have hw0 : st.waitCount = limit := by omega
      rw [List.cons_append, actRun]
      rw [show actIter limit exec objective st r
          = (.failed ("LLM requested wait beyond max attempts ("
              ++ Nat.repr limit ++ ")."), []) from by
        rw [actIter, if_pos (by rw [hw]), if_pos hfull]]
    · simp only [List.length_cons] at hsum
      rw [List.cons_append, actRun]
      rw [show actIter limit exec objective st r
          = (.continueLoop { st with waitCount := st.waitCount + 1 }, []) from by
        rw [actIter, if_pos (by rw [hw]), if_neg hfull]]
      show ((actRun limit exec objective { st with waitCount := st.waitCount + 1 }
            (rs ++ rest)).1,
          [] ++ (actRun limit exec objective { st with waitCount := st.waitCount + 1 }
            (rs ++ rest)).2)
        = _
      rw [ih { st with waitCount := st.waitCount + 1 } rest
        (fun x hx => hall x (by simp [hx]))
        (show st.waitCount + 1 ≤ limit by omega)
        (show st.waitCount + 1 + rs.length = limit + 1 by omega)]
      rfl

/-- C5: if the oracle answers `shouldWait=true` on `limit + 1`
consecutive rounds, `act()` throws with a message that cites the
configured wait-retry limit; each `shouldWait` response below the limit
increments the wait counter and loops; no command supplied alongside a
`shouldWait` response is ever dispatched. -/
theorem act_wait_limit (limit : ℕ) (exec : SomCommand → SemanticCommandResult)
    (objective : String) :
    (∀ (responses rest : List AiActionResult),
      (∀ r ∈ responses, r.shouldWait = true) →
      responses.length = limit + 1 →
      actRun limit exec objective initActState (responses ++ rest)
        = (.failed ("LLM requested wait beyond max attempts (" ++ Nat.repr limit ++ ")."),
            []))
    ∧ (∀ responses : List AiActionResult,
        (∀ r ∈ responses, r.shouldWait = true) →
        responses.length ≤ limit →
        actRun limit exec objective initActState responses
          = (.outOfResponses ⟨responses.length, 0, []⟩, []))
    ∧ strIncludes ("LLM requested wait beyond max attempts (" ++ Nat.repr limit ++ ").")
        (Nat.repr limit) = true := by
  refine ⟨?_, ?_, ?_⟩
  · intro responses rest hall hlen
    exact actRun_wait_overflow limit exec objective responses initActState rest hall
      (by simp [initActState]) (by simp [initActState, hlen])
  · intro responses hall hlen
    have h := actRun_wait_below limit exec objective responses initActState hall
      (by simp [initActState]; omega)
    simpa [initActState] using h
  · exact strIncludes_middle "LLM requested wait beyond max attempts (" (Nat.repr limit) ")."

/-- C6: a first oracle response of `stepCompleted=true` makes `act()`
return success immediately, with an empty command-results list and no
command dispatched through the action executor. -/
theorem act_step_completed (limit : ℕ) (exec : SomCommand → SemanticCommandResult)
    (objective : String) (r : AiActionResult) (rest : List AiActionResult)
    (hw : r.shouldWait = false) (hsc : r.stepCompleted = true) :
    actRun limit exec objective initActState (r :: rest)
      = (.finished ⟨[], .success, none⟩, []) := by
  rw [actRun]
  rw [show actIter limit exec objective initActState r
      = (.finished ⟨[], .success, none⟩, []) from by
    rw [actIter, if_neg (by rw [hw]; simp), if_pos (by rw [hsc])]
    rfl]

/-- Executor for the orchestration witnesses: every command succeeds. -/
def execDemo : SomCommand → SemanticCommandResult :=
  fun _ => { failedAttempts := [], status := .success }

/-- A `shouldWait` response that also (erroneously) carries commands. -/
def waitRespDemo : AiActionResult :=
  { shouldWait := true, commandsToRun := [cmdMissingDemo],
    preCommands := [cmdMissingDemo] }

/-- A `stepCompleted` response that also (erroneously) carries
commands. -/
def stepDoneDemo : AiActionResult :=
  { stepCompleted := true, commandsToRun := [cmdMissingDemo] }

/-- Witness for `act_wait_limit` with the default limit of 2: three
`shouldWait` rounds throw, two just bump the counter; the commands
carried by the responses are never dispatched. -/
theorem act_wait_limit_witness :
    actRun 2 execDemo "objective" initActState (List.replicate 3 waitRespDemo)
      = (.failed "LLM requested wait beyond max attempts (2).", [])
    ∧ actRun 2 execDemo "objective" initActState (List.replicate 2 waitRespDemo)
      = (.outOfResponses ⟨2, 0, []⟩, []) := by
  constructor
  · have h := (act_wait_limit 2 execDemo "objective").1 (List.replicate 3 waitRespDemo) []
      (fun r hr => by rw [List.eq_of_mem_replicate hr]; rfl) (by simp)
    simpa using h
  · have h := (act_wait_limit 2 execDemo "objective").2.1 (List.replicate 2 waitRespDemo)
      (fun r hr => by rw [List.eq_of_mem_replicate hr]; rfl) (by simp)
    simpa using h

/-- Witness for `act_step_completed` at a concrete response. -/
theorem act_step_completed_witness :
    actRun 2 execDemo "objective" initActState [stepDoneDemo]
      = (.finished ⟨[], .success, none⟩, []) :=
  act_step_completed 2 execDemo "objective" stepDoneDemo [] rfl rfl

/-! ## Orchestrator: `verify()` (`index.ts`)

One screenshot + oracle query per round trip; a `requestSomRefresh`
reply saturates the wait counter at the limit and retries the whole
round trip.  The host framework's assertion function is modelled as a
recorder: each `expectFn(actual, message)` call becomes an
`AssertRecord` with the predicate's value — distinguishing assertion
failures (failing records inside a normal return) from thrown system
errors (the `thrown` outcome).  The second component of the result
counts the oracle round trips performed. -/

/-- One host-framework assertion: its computed outcome and message. -/
structure AssertRecord where
  passed : Bool
  message : String
deriving DecidableEq

/-- What `verify()` returns to the caller. -/
structure VerifyResult where
  verificationSuccess : Bool
  confidence : ℚ
  verificationReason : Option String := none
deriving DecidableEq

/-- Outcome of `verify()` against a finite response list. -/
inductive VerifyOutcome where
  | ok (res : VerifyResult) (assertions : List AssertRecord)
  | thrown (message : String)
  | outOfResponses (waitCount : ℕ)
deriving DecidableEq

/-- Code: `extractVerification`: both fields are required. -/
def extractVerification (r : AiActionResult) :
    Except String (Bool × ℚ × Option String) :=
  match r.verificationSuccess with
  | none => .error "LLM response missing verificationSuccess field."
  | some vs =>
    match r.confidence with
    | none => .error "LLM response missing confidence field."
    | some conf => .ok (vs, conf, r.verificationReason)

/-- The confidence assertion's message. -/
def confidenceMsg (conf threshold : ℚ) : String :=
  "AI verification confidence " ++ qRender conf ++ " is below threshold "
    ++ qRender threshold

/-- The success assertion's message. -/
def verifyFailMsg (req : String) (reason : Option String) : String :=
  "AI verification failed for requirement: " ++ req
    ++ (match reason with
        | some rs => if rs ≠ "" then " - " ++ rs else ""
        | none => "")

/-- The `verify()` loop: `requestSomRefresh` retries with the wait
counter saturated at the limit (no bound check); otherwise the
verification fields are extracted, completion or success short-circuits
without asserting, and below that both assertions run — confidence
against `max 0 (threshold ?? 70)` and success against `true`. -/
def verifyRun (limit : ℕ) (thrOpt : Option ℚ) (req : String) :
    ℕ → List AiActionResult → VerifyOutcome × ℕ
  | waitCount, [] => (.outOfResponses waitCount, 0)
  | waitCount, r :: rest =>
    if r.requestSomRefresh then
      ((verifyRun limit thrOpt req (min (waitCount + 1) limit) rest).1,
        1 + (verifyRun limit thrOpt req (min (waitCount + 1) limit) rest).2)
    else
      match extractVerification r with
      | .error msg => (.thrown msg, 1)
      | .ok (vs, conf, reason) =>
        if r.stepCompleted || vs then (.ok ⟨vs, conf, reason⟩ [], 1)
        else
          (.ok ⟨vs, conf, reason⟩
            [⟨decide (max 0 (thrOpt.getD 70) ≤ conf),
               confidenceMsg conf (max 0 (thrOpt.getD 70))⟩,
             ⟨vs, verifyFailMsg req reason⟩], 1)

/-- C7: on `{verificationSuccess:false, confidence:40}` against
threshold 70, `verify()` emits exactly the two host-framework
assertions, both failing, with the confidence message citing 40 and 70 —
as assertion records in a normal return, not a thrown error; and when
the oracle signals completion or `verificationSuccess=true`, `verify()`
returns success with no assertion at all. -/
theorem verify_assertions (limit : ℕ) (req : String) (reason : Option String)
    (w : ℕ) (rest : List AiActionResult) :
    (verifyRun limit (some 70) req w
        ({ verificationSuccess := some false, confidence := some 40,
           verificationReason := reason } :: rest)
      = (.ok ⟨false, 40, reason⟩
          [⟨false, confidenceMsg 40 70⟩, ⟨false, verifyFailMsg req reason⟩], 1))
    ∧ strIncludes (confidenceMsg 40 70) "40" = true
    ∧ strIncludes (confidenceMsg 40 70) "70" = true
    ∧ (∀ (r : AiActionResult) (vs : Bool) (conf : ℚ),
        r.requestSomRefresh = false →
        r.verificationSuccess = some vs →
        r.confidence = some conf →
        (r.stepCompleted = true ∨ vs = true) →
        verifyRun limit (some 70) req w (r :: rest)
          = (.ok ⟨vs, conf, r.verificationReason⟩ [], 1)) := by
  refine ⟨?_, by decide, by decide, ?_⟩
  · rw [verifyRun]
    norm_num [extractVerification, confidenceMsg]
  · intro r vs conf hrf hvs hconf hdone
    rw [verifyRun, if_neg (by rw [hrf]; simp)]
    simp only [extractVerification, hvs, hconf]
    rcases hdone with h | h <;> simp [h]

/-- The oracle reply used in the verification witnesses. -/
def goodVerifyDemo : AiActionResult :=
  { verificationSuccess := some true, confidence := some 95 }

/-- Witness for `verify_assertions` at a concrete short-circuiting
response. -/
theorem verify_assertions_witness :
    verifyRun 2 (some 70) "req" 0 [goodVerifyDemo]
      = (.ok ⟨true, 95, none⟩ [], 1) :=
  (verify_assertions 2 "req" none 0 []).2.2.2 goodVerifyDemo true 95 rfl rfl rfl
    (Or.inr rfl)

/-- A `requestSomRefresh` oracle reply. -/
def refreshDemo : AiActionResult := { requestSomRefresh := true }

/-- C9 counterexample: two consecutive `requestSomRefresh` replies make
`verify()` run the full round trip three times (two additional round
trips), refuting the claim that consecutive refresh responses cannot
cause more than one additional round trip. -/
theorem verify_refresh_counterexample :
    (verifyRun 2 none "req" 0 [refreshDemo, refreshDemo, goodVerifyDemo]).2 = 3
    ∧ (verifyRun 2 none "req" 0 [refreshDemo, refreshDemo, goodVerifyDemo]).1
        = .ok ⟨true, 95, none⟩ [] := by
  constructor <;> rfl

/-- C9 (amended): every `requestSomRefresh` response triggers one retry
of the whole round trip; the wait counter saturates at the configured
limit but nothing bounds the retries, so `k` consecutive refresh
responses cause exactly `k` additional round trips. -/
theorem verify_refresh_spec (limit : ℕ) (thrOpt : Option ℚ) (req : String) :
    ∀ (k w : ℕ) (rest : List AiActionResult), w ≤ limit →
      verifyRun limit thrOpt req w (List.replicate k refreshDemo ++ rest)
        = ((verifyRun limit thrOpt req (min (w + k) limit) rest).1,
            k + (verifyRun limit thrOpt req (min (w + k) limit) rest).2) := by
  intro k
  induction k with
  | zero =>
    intro w rest hw
    simp only [List.replicate, List.nil_append, Nat.add_zero, Nat.zero_add]
    rw [min_eq_left hw]
  | succ k ih =>
    intro w rest hw
    rw [show List.replicate (k + 1) refreshDemo = refreshDemo :: List.replicate k refreshDemo
      from rfl, List.cons_append, verifyRun, if_pos (by rfl)]
    rw [ih (min (w + 1) limit) rest (by omega)]
    have harith : min (min (w + 1) limit + k) limit = min (w + (k + 1)) limit := by
      omega
    rw [harith]
    simp only [Prod.mk.injEq]
    refine ⟨by trivial, ?_⟩
    omega

/-- Witness for `verify_refresh_spec` at the counterexample's inputs. -/
theorem verify_refresh_spec_witness :
    verifyRun 2 none "req" 0 (List.replicate 2 refreshDemo ++ [goodVerifyDemo])
      = ((verifyRun 2 none "req" (min (0 + 2) 2) [goodVerifyDemo]).1,
          2 + (verifyRun 2 none "req" (min (0 + 2) 2) [goodVerifyDemo]).2) :=
  verify_refresh_spec 2 none "req" 2 0 [goodVerifyDemo] (by omega)

end AiWright
